import Mathlib

/-!
# H.264 decode / scale / encode pipeline (`main.go`)

A shallow embedding of the NAL extractor `getNAL` (with its parameter-set
cache) and of the transcode loop of `main`, followed by the properties
proved about them.

Modelling choices:

* Bytes are natural numbers, byte slices are lists.
* The bitstream reader `h264Reader` is the list of NAL units it still has to
  deliver; `NextNAL` pops the head and fails (end of stream) on the empty
  list.
* The declarations of package `joy5` that `getNAL` uses (`NALU_SPS`,
  `NALU_PPS`, `ParseSPS`) are parameters, bundled in `Joy5`.
* The codec library and the output file are outside the program: the answer
  to the `k`-th call the program makes to them is `lib k`, for an arbitrary
  function `lib`.
* A panic ends the program; functions that can panic return the panic, and
  the state of `main` records it.
* The counter `pts` is an `int64`: incrementing it wraps (`wrapInt64`).
-/

namespace H264Transcode

/-! ## NAL extractor -/

/-- One NAL unit as delivered by `h264Reader.NextNAL`: its type code and its
payload (without start code). -/
structure NAL where
  UnitType : Nat
  Data : List Nat
deriving DecidableEq, Repr

/-- Result of `joy5.ParseSPS`, restricted to the fields `getNAL` prints. -/
structure SPSInfo where
  Width : Nat
  Height : Nat
deriving DecidableEq, Repr

/-- The declarations of package `joy5` used by `getNAL`: the two unit-type
constants and the SPS parser (`none` is a returned error). -/
structure Joy5 where
  NALU_SPS : Nat
  NALU_PPS : Nat
  ParseSPS : List Nat → Option SPSInfo

/-- Reasons for which the program panics. -/
inductive Panic where
  | nextNAL
  | parseSPS
  | fromData
  | sendPacket
  | receiveFrame
  | noEncoder
  | allocCodecContext
  | openEncoder
  | createScaler
  | scaleFrame
  | sendFrame
  | receivePacket
  | write
deriving DecidableEq, Repr

deriving instance DecidableEq for Except

/-- The globals `getNAL` reads and writes, plus the lines it prints. -/
structure Extractor where
  h264Reader : List NAL
  printedVideoDimensions : Bool
  SPSAndPPSCache : List Nat
  stdout : List SPSInfo
deriving DecidableEq, Repr

/-- The three bytes `getNAL` puts in front of every payload. -/
def startCode : List Nat := [0x0, 0x0, 0x1]

/-- A unit with its start code: `append([]byte{0,0,1}, nal.Data...)`. -/
def annexB (nal : NAL) : List Nat := startCode ++ nal.Data

/-- The test of line 131: the unit is an SPS or a PPS. -/
def isParameterSet (J : Joy5) (nal : NAL) : Bool :=
  nal.UnitType == J.NALU_SPS || nal.UnitType == J.NALU_PPS

/-- Lines 120-128 of `getNAL`: on an SPS, while the dimensions are not yet
printed, parse it and print them; `none` is the panic on a parse error. -/
def reportDimensions (J : Joy5) (nal : NAL) (printed : Bool) (out : List SPSInfo) :
    Option (Bool × List SPSInfo) :=
  if nal.UnitType == J.NALU_SPS && !printed then
    match J.ParseSPS nal.Data with
    | none => none
    | some info => some (true, out ++ [info])
  else some (printed, out)

/-- The `for` loop of `getNAL`, by recursion on the units left in the
reader; the other arguments are `printedVideoDimensions`, `SPSAndPPSCache`
and the printed lines. -/
def getNALLoop (J : Joy5) :
    List NAL → Bool → List Nat → List SPSInfo → Except Panic (List Nat × Extractor)
  | [], _, _, _ => .error .nextNAL
  | nal :: rest, printed, cache, out =>
    match reportDimensions J nal printed out with
    | none => .error .parseSPS
    | some (printed1, out1) =>
      let data := [0x0, 0x0, 0x1] ++ nal.Data
      if nal.UnitType == J.NALU_SPS || nal.UnitType == J.NALU_PPS then
        getNALLoop J rest printed1 (cache ++ data) out1
      else if cache.length ≠ 0 then
        .ok (cache ++ data, ⟨rest, printed1, [], out1⟩)
      else
        .ok (data, ⟨rest, printed1, cache, out1⟩)

/-- The function `getNAL`: the returned access unit and the new globals, or
the panic. -/
def getNAL (J : Joy5) (s : Extractor) : Except Panic (List Nat × Extractor) :=
  getNALLoop J s.h264Reader s.printedVideoDimensions s.SPSAndPPSCache s.stdout

/-- The first `n` calls of `getNAL`, one after the other: the access units
returned, in order, and the globals after the last call. -/
def getNALs (J : Joy5) : Nat → Extractor → Except Panic (List (List Nat) × Extractor)
  | 0, s => .ok ([], s)
  | n + 1, s =>
    match getNAL J s with
    | .error e => .error e
    | .ok (au, s1) =>
      match getNALs J n s1 with
      | .error e => .error e
      | .ok (aus, s2) => .ok (au :: aus, s2)

/-- The globals of the extractor at program start, reading `input`. -/
def Extractor.init (input : List NAL) : Extractor := ⟨input, false, [], []⟩

/-- The first SPS among `units` is refused by `ParseSPS` while the
dimensions have not been printed: the situation in which line 123 panics. -/
def spsRejected (J : Joy5) (printed : Bool) (units : List NAL) : Bool :=
  !printed &&
    match units.find? (fun nal => nal.UnitType == J.NALU_SPS) with
    | some nal => (J.ParseSPS nal.Data).isNone
    | none => false

/-- The prefix of `units` that ends at its `n`-th unit that is not a
parameter set (all of `units` when there are fewer). -/
def unitsThrough (J : Joy5) : Nat → List NAL → List NAL
  | 0, _ => []
  | _ + 1, [] => []
  | n + 1, nal :: rest =>
    if isParameterSet J nal then nal :: unitsThrough J (n + 1) rest
    else nal :: unitsThrough J n rest

/-- Number of units that are not parameter sets. -/
def sliceCount (J : Joy5) (units : List NAL) : Nat :=
  units.countP (fun nal => !isParameterSet J nal)

/-- Flag `printedVideoDimensions` after the loop went through `units`. -/
def printedAfter (J : Joy5) (printed : Bool) (units : List NAL) : Bool :=
  printed || units.any (fun nal => nal.UnitType == J.NALU_SPS)

/-- A sample instance of the `joy5` declarations, for evaluating the model:
the H.264 type codes 7 and 8, and a parser that refuses an SPS shorter than
its four fixed leading bytes (NAL header, `profile_idc`, constraint flags,
`level_idc`) and reports 640 x 480 otherwise. -/
def sampleJoy5 : Joy5 where
  NALU_SPS := 7
  NALU_PPS := 8
  ParseSPS := fun data => if data.length < 4 then none else some ⟨640, 480⟩


/-! ## Transcode loop of `main`

The codec library and the output file are outside the program: the answer
to the `k`-th call the program makes to them is `lib k`, for an arbitrary
`lib`.  The state records where the program is (at the head of one of the
three nested `for` loops, or stopped by a panic) and the calls made so far. -/

/-- Error value returned by a library call: `nil`, `astiav.ErrEagain`,
`astiav.ErrEof`, or any other error. -/
inductive AvError where
  | nil
  | eagain
  | eof
  | other
deriving DecidableEq, Repr

/-- The fields of an `astiav.CodecContext` that the program reads or sets. -/
structure CodecContext where
  PixelFormat : Nat
  SampleAspectRatio : Int × Int
  TimeBase : Int × Int
  Width : Int
  Height : Int
deriving DecidableEq, Repr

/-- Flags of the software scaler; the program only uses the bilinear one. -/
inductive ScaleFlag where
  | bilinear
deriving DecidableEq, Repr

/-- The arguments `astiav.CreateSoftwareScaleContext` was called with. -/
structure SoftwareScaleContext where
  srcW : Int
  srcH : Int
  srcFormat : Nat
  dstW : Int
  dstH : Int
  dstFormat : Nat
  flags : ScaleFlag
deriving DecidableEq, Repr

/-- What one call into the codec library or the output file answers.  Each
call reads the fields that exist for it: `err` the returned error, `isNil`
whether a returned pointer is nil, `decoder` the fields of the decoder
context after a decoder call, `data` the payload of a received packet,
`written` the bytes a failed `Write` still wrote. -/
structure Reply where
  err : AvError
  isNil : Bool
  decoder : CodecContext
  data : List Nat
  written : Nat
deriving DecidableEq, Repr

/-- Observable actions of the program.  The action `getNAL au` is a return of
`getNAL` with access unit `au`, `initVideoEncoding ran` a call of that
function; the others are calls into the library or the output file,
recorded when they are made, with the error or payload they answer where
the program branches on it. -/
inductive Event where
  | getNAL (au : List Nat)
  | SendPacket (au : List Nat)
  | ReceiveFrame (err : AvError)
  | initVideoEncoding (ran : Bool)
  | ScaleFrame
  | SendFrame (pts : Int)
  | ReceivePacket (err : AvError) (data : List Nat)
  | Write (data : List Nat)
deriving DecidableEq, Repr

/-- Heads of the three nested `for` loops of `main` (lines 57, 68, 94). -/
inductive Loc where
  | submit
  | pullFrame
  | pullPacket
deriving DecidableEq, Repr

/-- The package-level variables of `main.go`, the content of `out.h264`, the
program point, the panic that stopped the program (if any), the number of
library calls made and the actions performed. -/
structure Pipeline where
  extractor : Extractor
  decodeCodecContext : CodecContext
  encodeCodecContext : Option CodecContext
  softwareScaleContext : Option SoftwareScaleContext
  scaledFrame : Option Int
  pts : Int
  outFile : List Nat
  loc : Loc
  panic : Option Panic
  calls : Nat
  trace : List Event
deriving DecidableEq, Repr

/-- Constant `outputWidth`. -/
def outputWidth : Int := 1280

/-- Constant `outputHeight`. -/
def outputHeight : Int := 720

/-- The value of an `int64` after an arithmetic operation gave `x`. -/
def wrapInt64 (x : Int) : Int :=
  (x + 9223372036854775808) % 18446744073709551616 - 9223372036854775808

/-- The function `initVideoEncoding`.  It records each of its calls in the
trace, with whether the body after the guard of line 164 was entered. -/
def initVideoEncoding (lib : Nat → Reply) (s : Pipeline) : Pipeline :=
  if s.encodeCodecContext.isSome then
    { s with trace := s.trace ++ [Event.initVideoEncoding false] }
  else
    let s0 := { s with trace := s.trace ++ [Event.initVideoEncoding true] }
    -- astiav.FindEncoderByName("libx264")
    if (lib s0.calls).isNil then
      { s0 with calls := s0.calls + 1, panic := some .noEncoder }
    -- astiav.AllocCodecContext(h264Encoder)
    else if (lib (s0.calls + 1)).isNil then
      { s0 with calls := s0.calls + 2, panic := some .allocCodecContext }
    else
      let ctx : CodecContext :=
        { PixelFormat := s0.decodeCodecContext.PixelFormat
          SampleAspectRatio := s0.decodeCodecContext.SampleAspectRatio
          TimeBase := (1, 30)
          Width := outputWidth
          Height := outputHeight }
      let s1 := { s0 with encodeCodecContext := some ctx }
      -- encodeCodecContext.Open(h264Encoder, nil)
      if (lib (s0.calls + 2)).err ≠ .nil then
        { s1 with calls := s0.calls + 3, panic := some .openEncoder }
      -- astiav.CreateSoftwareScaleContext(...)
      else if (lib (s0.calls + 3)).err ≠ .nil then
        { s1 with calls := s0.calls + 4, panic := some .createScaler }
      else
        { s1 with
          calls := s0.calls + 4
          softwareScaleContext := some
            { srcW := s0.decodeCodecContext.Width
              srcH := s0.decodeCodecContext.Height
              srcFormat := s0.decodeCodecContext.PixelFormat
              dstW := outputWidth
              dstH := outputHeight
              dstFormat := s0.decodeCodecContext.PixelFormat
              flags := .bilinear }
          scaledFrame := some 0 }

/-- Lines 58-66: read an access unit, wrap it in `decodePacket` and send it
to the decoder; then enter the frame loop. -/
def submit (J : Joy5) (lib : Nat → Reply) (s : Pipeline) : Pipeline :=
  match getNAL J s.extractor with
  | .error p => { s with panic := some p }
  | .ok (au, ex) =>
    let s1 := { s with extractor := ex, trace := s.trace ++ [Event.getNAL au] }
    -- decodePacket.FromData(...)
    if (lib s1.calls).err ≠ .nil then
      { s1 with calls := s1.calls + 1, panic := some .fromData }
    else
      -- decodeCodecContext.SendPacket(decodePacket)
      let r := lib (s1.calls + 1)
      let s2 := { s1 with
        calls := s1.calls + 2
        decodeCodecContext := r.decoder
        trace := s1.trace ++ [Event.SendPacket au] }
      if r.err ≠ .nil then { s2 with panic := some .sendPacket }
      else { s2 with loc := .pullFrame }

/-- Lines 69-92: one turn of the frame loop, up to the head of the packet
loop. -/
def pullFrame (lib : Nat → Reply) (s : Pipeline) : Pipeline :=
  -- decodeCodecContext.ReceiveFrame(decodeFrame)
  let r := lib s.calls
  let s1 := { s with
    calls := s.calls + 1
    decodeCodecContext := r.decoder
    trace := s.trace ++ [Event.ReceiveFrame r.err] }
  match r.err with
  | .eof => { s1 with loc := .submit }
  | .eagain => { s1 with loc := .submit }
  | .other => { s1 with panic := some .receiveFrame }
  | .nil =>
    let s2 := initVideoEncoding lib s1
    if s2.panic.isSome then s2
    else
      -- softwareScaleContext.ScaleFrame(decodeFrame, scaledFrame)
      let s3 := { s2 with calls := s2.calls + 1, trace := s2.trace ++ [Event.ScaleFrame] }
      if (lib s2.calls).err ≠ .nil then { s3 with panic := some .scaleFrame }
      else
        let pts := wrapInt64 (s3.pts + 1)
        -- scaledFrame.SetPts(pts); encodeCodecContext.SendFrame(scaledFrame)
        let s4 := { s3 with
          pts := pts
          scaledFrame := s3.scaledFrame.map (fun _ => pts)
          calls := s3.calls + 1
          trace := s3.trace ++ [Event.SendFrame pts] }
        if (lib s3.calls).err ≠ .nil then { s4 with panic := some .sendFrame }
        else { s4 with loc := .pullPacket }

/-- Lines 95-106: one turn of the packet loop.  A failed `Write` may have
written the first `written` bytes of the packet. -/
def pullPacket (lib : Nat → Reply) (s : Pipeline) : Pipeline :=
  -- encodeCodecContext.ReceivePacket(encodePacket)
  let r := lib s.calls
  let s1 := { s with
    calls := s.calls + 1
    trace := s.trace ++ [Event.ReceivePacket r.err r.data] }
  match r.err with
  | .eof => { s1 with loc := .pullFrame }
  | .eagain => { s1 with loc := .pullFrame }
  | .other => { s1 with panic := some .receivePacket }
  | .nil =>
    -- outFile.Write(encodePacket.Data())
    let w := lib s1.calls
    let s2 := { s1 with calls := s1.calls + 1, trace := s1.trace ++ [Event.Write r.data] }
    if w.err ≠ .nil then
      { s2 with outFile := s2.outFile ++ r.data.take w.written, panic := some .write }
    else
      { s2 with outFile := s2.outFile ++ r.data }

/-- The state of the frame loop right after a frame was received. -/
def frameReceived (lib : Nat → Reply) (s : Pipeline) : Pipeline :=
  { s with calls := s.calls + 1, decodeCodecContext := (lib s.calls).decoder,
           trace := s.trace ++ [Event.ReceiveFrame .nil] }

/-- One turn of the loop the program is in; a program stopped by a panic
stays as it is. -/
def step (J : Joy5) (lib : Nat → Reply) (s : Pipeline) : Pipeline :=
  if s.panic.isSome then s
  else
    match s.loc with
    | .submit => submit J lib s
    | .pullFrame => pullFrame lib s
    | .pullPacket => pullPacket lib s

/-- The program after `n` loop turns. -/
def run (J : Joy5) (lib : Nat → Reply) : Nat → Pipeline → Pipeline
  | 0, s => s
  | n + 1, s => run J lib n (step J lib s)

/-- The state in which `main` enters its loop: decoder opened, files
opened, reader on `input`, every other global at its zero value. -/
def Pipeline.init (input : List NAL) (decoder : CodecContext) : Pipeline where
  extractor := Extractor.init input
  decodeCodecContext := decoder
  encodeCodecContext := none
  softwareScaleContext := none
  scaledFrame := none
  pts := 0
  outFile := []
  loc := .submit
  panic := none
  calls := 0
  trace := []

/-- The function `main` from the head of its loop on, after `fuel` loop
turns: `input` is the content of `in.h264` as NAL units, `decoder` the
decoder context that `initVideoDecoding` opened, `lib` the answers of the
codec library and of the output file. -/
def main (J : Joy5) (lib : Nat → Reply) (input : List NAL) (decoder : CodecContext)
    (fuel : Nat) : Pipeline :=
  run J lib fuel (Pipeline.init input decoder)

/-- Timestamps handed to the encoder, in order. -/
def sentPts (tr : List Event) : List Int :=
  tr.filterMap (fun e => match e with | .SendFrame p => some p | _ => none)

/-- Flags of the calls of `initVideoEncoding`, in order: `true` when the
body ran. -/
def initRuns (tr : List Event) : List Bool :=
  tr.filterMap (fun e => match e with | .initVideoEncoding b => some b | _ => none)

/-- Number of frames the decoder delivered. -/
def framesDecoded (tr : List Event) : Nat :=
  tr.countP (fun e => e == .ReceiveFrame .nil)

/-- The pull signalled "not ready" or "ended". -/
def AvError.drained (e : AvError) : Bool := e == .eagain || e == .eof

/-- The ordering rule of the loop nest: `mayFollow a b` says that action `b`
may come directly after action `a`. -/
def mayFollow (a b : Event) : Bool :=
  match b with
  | .getNAL _ => match a with
    | .ReceiveFrame e => e.drained
    | _ => false
  | .SendPacket au => a == .getNAL au
  | .ReceiveFrame _ => match a with
    | .SendPacket _ => true
    | .ReceivePacket e _ => e.drained
    | _ => false
  | .initVideoEncoding _ => a == .ReceiveFrame .nil
  | .ScaleFrame => match a with
    | .initVideoEncoding _ => true
    | _ => false
  | .SendFrame _ => a == .ScaleFrame
  | .ReceivePacket _ _ => match a with
    | .SendFrame _ => true
    | .Write _ => true
    | _ => false
  | .Write d => a == .ReceivePacket .nil d

/-- The timestamps sent so far are the wrapped values of 1, 2, ..., and
`pts` is the wrapped number of frames sent. -/
def ptsInv (s : Pipeline) : Prop :=
  s.pts = wrapInt64 (sentPts s.trace).length ∧
  sentPts s.trace =
    (List.range (sentPts s.trace).length).map (fun (k : Nat) => wrapInt64 ((k : Int) + 1))

/-- A zeroed decoder context. -/
def CodecContext.zero : CodecContext := ⟨0, (0, 1), (0, 1), 0, 0⟩

/-- A library answer "success" of a decoder reporting `w` x `h`, pixel
format `fmt`, carrying packet payload `data`. -/
def Reply.ok (w h : Int) (fmt : Nat) (data : List Nat) : Reply :=
  ⟨.nil, false, ⟨fmt, (1, 1), (1, 30), w, h⟩, data, 0⟩

/-- A library answer with error `e`. -/
def Reply.fail (e : AvError) : Reply := ⟨e, true, CodecContext.zero, [], 0⟩

/-- The calls of `initVideoEncoding` so far are one per decoded frame, the
body ran in the first of them only, and in a running program the encoder
context exists exactly when there was such a call. -/
def initInv (s : Pipeline) : Prop :=
  initRuns s.trace = (List.range (framesDecoded s.trace)).map (fun (k : Nat) => k == 0) ∧
  (s.panic = none → s.encodeCodecContext.isNone = (initRuns s.trace).isEmpty)

/-- The action the program performs first when it is at `loc`. -/
def Loc.next : Loc → Event
  | .submit => .getNAL []
  | .pullFrame => .ReceiveFrame .nil
  | .pullPacket => .ReceivePacket .nil []

/-- The actions so far respect the ordering rule, they start with a read of
an access unit, and the action the program is about to perform may follow
the last one. -/
def orderInv (s : Pipeline) : Prop :=
  List.Chain' (fun a b => mayFollow a b = true) s.trace ∧
  (∀ e, s.trace.head? = some e → ∃ au, e = .getNAL au) ∧
  (s.panic = none →
    (s.trace = [] → s.loc = .submit) ∧
    ∀ a, s.trace.getLast? = some a → mayFollow a s.loc.next = true)

/-- Payloads handed to `outFile.Write`, in order. -/
def written (tr : List Event) : List (List Nat) :=
  tr.filterMap (fun e => match e with | .Write d => some d | _ => none)

/-- A library in which the first pull of a frame answers `ErrEof` and every
other call succeeds. -/
def eofLib : Nat → Reply :=
  fun k => if k = 2 then Reply.fail .eof else Reply.ok 640 480 0 []

/-- A library in which every call succeeds, the encoder delivers the packet
`[1, 2, 3]` for the first frame and `[4, 5]` for the second, and one frame is
decoded per access unit. -/
def sampleLib : Nat → Reply :=
  fun k =>
    if k = 9 then Reply.ok 640 480 0 [1, 2, 3]
    else if k = 18 then Reply.ok 640 480 0 [4, 5]
    else if k = 11 ∨ k = 12 ∨ k = 20 ∨ k = 21 then Reply.fail .eagain
    else Reply.ok 640 480 0 []

/-- Two slices behind an SPS and a PPS. -/
def sampleInput : List NAL :=
  [⟨7, [0x67, 0x42, 0x00, 0x1f]⟩, ⟨8, [0x68]⟩, ⟨5, [0x65]⟩, ⟨1, [0x41]⟩]

/-- Number of calls of `ScaleFrame`: the frames that reached the scale
stage. -/
def scaleCount (tr : List Event) : Nat :=
  tr.countP (fun e => e == .ScaleFrame)

/-- Every call of `ScaleFrame` is directly followed by the `SendFrame` of
the same frame, stamped with the `int64` value of its number (one more than
the calls of `ScaleFrame` before it); the only exception is a last call that
failed, when `failed` is set. -/
def stampedAt (tr : List Event) (failed : Bool) : Prop :=
  ∀ i, tr[i]? = some .ScaleFrame →
    tr[i + 1]? = some (.SendFrame (wrapInt64 ((scaleCount (tr.take i) : Int) + 1))) ∨
    (failed = true ∧ i + 1 = tr.length)

/-- The timestamps follow the count of scaled frames: `ptsInv`, every scaled
frame is stamped and sent (`stampedAt`), as many frames were sent as were
scaled unless the last `ScaleFrame` failed, and never more. -/
def stampInv (s : Pipeline) : Prop :=
  ptsInv s ∧
  stampedAt s.trace (s.panic == some .scaleFrame) ∧
  (s.panic ≠ some .scaleFrame → scaleCount s.trace = (sentPts s.trace).length) ∧
  (sentPts s.trace).length ≤ scaleCount s.trace

/-- The frame `scaledFrame` exists once the encoder is set up, and after a
frame was sent it carries the timestamp `pts`. -/
def frameInv (s : Pipeline) : Prop :=
  (s.panic = none → s.encodeCodecContext.isSome = true → s.scaledFrame.isSome = true) ∧
  (sentPts s.trace ≠ [] →
    s.encodeCodecContext.isSome = true ∧ s.scaledFrame = some s.pts)
/-! ## Lemmas on the extractor -/

theorem spsRejected_printed (J : Joy5) (units : List NAL) :
    spsRejected J true units = false := by
  simp [spsRejected]

theorem spsRejected_cons_sps (J : Joy5) (nal : NAL) (units : List NAL)
    (h : (nal.UnitType == J.NALU_SPS) = true) :
    spsRejected J false (nal :: units) = (J.ParseSPS nal.Data).isNone := by
  simp [spsRejected, List.find?, h]

theorem spsRejected_cons_other (J : Joy5) (printed : Bool) (nal : NAL) (units : List NAL)
    (h : (nal.UnitType == J.NALU_SPS) = false) :
    spsRejected J printed (nal :: units) = spsRejected J printed units := by
  simp [spsRejected, List.find?, h]

theorem isParameterSet_false_sps (J : Joy5) (nal : NAL) (h : isParameterSet J nal = false) :
    (nal.UnitType == J.NALU_SPS) = false := by
  simp only [isParameterSet, Bool.or_eq_false_iff] at h
  exact h.1

theorem reportDimensions_other (J : Joy5) (nal : NAL) (printed : Bool) (out : List SPSInfo)
    (h : (nal.UnitType == J.NALU_SPS) = false) :
    reportDimensions J nal printed out = some (printed, out) := by
  simp [reportDimensions, h]

theorem reportDimensions_printed (J : Joy5) (nal : NAL) (out : List SPSInfo) :
    reportDimensions J nal true out = some (true, out) := by
  simp [reportDimensions]

theorem reportDimensions_sps (J : Joy5) (nal : NAL) (out : List SPSInfo)
    (h : (nal.UnitType == J.NALU_SPS) = true) :
    reportDimensions J nal false out =
      (J.ParseSPS nal.Data).map (fun info => (true, out ++ [info])) := by
  cases hparse : J.ParseSPS nal.Data <;> simp [reportDimensions, h, hparse]

theorem getNALLoop_param_step (J : Joy5) (nal : NAL) (rest : List NAL)
    (printed printed1 : Bool) (cache : List Nat) (out out1 : List SPSInfo)
    (hrep : reportDimensions J nal printed out = some (printed1, out1))
    (hp : isParameterSet J nal = true) :
    getNALLoop J (nal :: rest) printed cache out =
      getNALLoop J rest printed1 (cache ++ annexB nal) out1 := by
  have hp1 : (nal.UnitType == J.NALU_SPS || nal.UnitType == J.NALU_PPS) = true := hp
  simp only [getNALLoop, hrep, hp1, if_true, annexB, startCode]

theorem getNALLoop_slice_step (J : Joy5) (nal : NAL) (rest : List NAL)
    (printed printed1 : Bool) (cache : List Nat) (out out1 : List SPSInfo)
    (hrep : reportDimensions J nal printed out = some (printed1, out1))
    (hp : isParameterSet J nal = false) :
    getNALLoop J (nal :: rest) printed cache out =
      .ok (cache ++ annexB nal, ⟨rest, printed1, [], out1⟩) := by
  have hp1 : (nal.UnitType == J.NALU_SPS || nal.UnitType == J.NALU_PPS) = false := hp
  cases cache with
  | nil => simp [getNALLoop, hrep, hp1, annexB, startCode]
  | cons c cs => simp [getNALLoop, hrep, hp1, annexB, startCode]

/-- One turn of the loop on a parameter set that is not refused: the unit
goes to the cache and the loop goes on. -/
theorem getNALLoop_cons_param (J : Joy5) (nal : NAL) (rest : List NAL) (printed : Bool)
    (cache : List Nat) (out : List SPSInfo) (hp : isParameterSet J nal = true)
    (hr : spsRejected J printed (nal :: rest) = false) :
    ∃ out1, getNALLoop J (nal :: rest) printed cache out =
        getNALLoop J rest (printed || nal.UnitType == J.NALU_SPS) (cache ++ annexB nal) out1
      ∧ spsRejected J (printed || nal.UnitType == J.NALU_SPS) rest = false := by
  cases hs : (nal.UnitType == J.NALU_SPS) with
  | false =>
    refine ⟨out, ?_, ?_⟩
    · rw [getNALLoop_param_step J nal rest printed printed cache out out
        (reportDimensions_other J nal printed out hs) hp]
      simp
    · rw [spsRejected_cons_other J printed nal rest hs] at hr
      simpa using hr
  | true =>
    cases printed with
    | true =>
      refine ⟨out, ?_, ?_⟩
      · rw [getNALLoop_param_step J nal rest true true cache out out
          (reportDimensions_printed J nal out) hp]
        simp
      · simp [spsRejected_printed]
    | false =>
      rw [spsRejected_cons_sps J nal rest hs] at hr
      cases hparse : J.ParseSPS nal.Data with
      | none => simp [hparse] at hr
      | some info =>
        refine ⟨out ++ [info], ?_, ?_⟩
        · rw [getNALLoop_param_step J nal rest false true cache out (out ++ [info])
            (by rw [reportDimensions_sps J nal out hs, hparse]; rfl) hp]
          simp
        · simp [spsRejected_printed]

/-- One turn of the loop on a unit that is not a parameter set: the cache
is put in front of it and emptied. -/
theorem getNALLoop_cons_slice (J : Joy5) (nal : NAL) (rest : List NAL) (printed : Bool)
    (cache : List Nat) (out : List SPSInfo) (hp : isParameterSet J nal = false) :
    getNALLoop J (nal :: rest) printed cache out =
      .ok (cache ++ annexB nal, ⟨rest, printed, [], out⟩) :=
  getNALLoop_slice_step J nal rest printed printed cache out out
    (reportDimensions_other J nal printed out (isParameterSet_false_sps J nal hp)) hp

/-- One turn of the loop on an SPS that the parser refuses. -/
theorem getNALLoop_cons_rejected (J : Joy5) (nal : NAL) (rest : List NAL)
    (cache : List Nat) (out : List SPSInfo) (hs : (nal.UnitType == J.NALU_SPS) = true)
    (hparse : J.ParseSPS nal.Data = none) :
    getNALLoop J (nal :: rest) false cache out = .error .parseSPS := by
  simp [getNALLoop, reportDimensions_sps J nal out hs, hparse]

theorem printedAfter_cons (J : Joy5) (printed : Bool) (nal : NAL) (units : List NAL) :
    printedAfter J printed (nal :: units) =
      printedAfter J (printed || nal.UnitType == J.NALU_SPS) units := by
  simp [printedAfter, Bool.or_assoc]

/-- The loop over a run of accepted parameter sets: all of them are in the
cache, in order, when the loop reaches what follows. -/
theorem getNALLoop_params (J : Joy5) (tail : List NAL) :
    ∀ (ps : List NAL) (printed : Bool) (cache : List Nat) (out : List SPSInfo),
      (∀ p ∈ ps, isParameterSet J p = true) → spsRejected J printed ps = false →
      ∃ out1, getNALLoop J (ps ++ tail) printed cache out =
        getNALLoop J tail (printedAfter J printed ps) (cache ++ (ps.map annexB).flatten) out1 := by
  intro ps
  induction ps with
  | nil =>
    intro printed cache out _ _
    exact ⟨out, by simp [printedAfter]⟩
  | cons nal ns ih =>
    intro printed cache out hall hr
    have hp : isParameterSet J nal = true := hall nal (List.mem_cons_self _ _)
    obtain ⟨out1, _, hr1⟩ := getNALLoop_cons_param J nal ns printed cache out hp hr
    have hrep : ∃ out2, reportDimensions J nal printed out =
        some (printed || nal.UnitType == J.NALU_SPS, out2) := by
      cases hs : (nal.UnitType == J.NALU_SPS) with
      | false => exact ⟨out, by simp [reportDimensions_other J nal printed out hs]⟩
      | true =>
        cases printed with
        | true => exact ⟨out, by simp [reportDimensions_printed]⟩
        | false =>
          rw [spsRejected_cons_sps J nal ns hs] at hr
          cases hparse : J.ParseSPS nal.Data with
          | none => simp [hparse] at hr
          | some info =>
            exact ⟨out ++ [info], by rw [reportDimensions_sps J nal out hs, hparse]; rfl⟩
    obtain ⟨out2, hrep⟩ := hrep
    obtain ⟨out3, h3⟩ := ih (printed || nal.UnitType == J.NALU_SPS) (cache ++ annexB nal) out2
      (fun p hpm => hall p (List.mem_cons_of_mem _ hpm)) hr1
    refine ⟨out3, ?_⟩
    rw [List.cons_append, getNALLoop_param_step J nal (ns ++ tail) printed _ cache out out2 hrep hp,
      h3, printedAfter_cons]
    simp [List.append_assoc]

/-- A run of accepted parameter sets followed by another unit: one access
unit with the cache, the parameter sets and that unit, and an empty cache. -/
theorem getNALLoop_params_slice (J : Joy5) (ps : List NAL) (u : NAL) (rest : List NAL)
    (printed : Bool) (cache : List Nat) (out : List SPSInfo)
    (hall : ∀ p ∈ ps, isParameterSet J p = true) (hu : isParameterSet J u = false)
    (hr : spsRejected J printed ps = false) :
    ∃ out1, getNALLoop J (ps ++ u :: rest) printed cache out =
      .ok (cache ++ (ps.map annexB).flatten ++ annexB u,
        ⟨rest, printedAfter J printed ps, [], out1⟩) := by
  obtain ⟨out1, h1⟩ := getNALLoop_params J (u :: rest) ps printed cache out hall hr
  exact ⟨out1, by rw [h1, getNALLoop_cons_slice J u rest _ _ out1 hu]⟩

/-- A run of accepted parameter sets at the end of the input: `NextNAL`
fails and nothing is returned. -/
theorem getNALLoop_params_end (J : Joy5) (ps : List NAL)
    (printed : Bool) (cache : List Nat) (out : List SPSInfo)
    (hall : ∀ p ∈ ps, isParameterSet J p = true)
    (hr : spsRejected J printed ps = false) :
    getNALLoop J ps printed cache out = .error .nextNAL := by
  obtain ⟨out1, h1⟩ := getNALLoop_params J [] ps printed cache out hall hr
  rw [List.append_nil] at h1
  rw [h1]
  rfl

/-- A run of parameter sets whose first SPS is refused: the parse panic,
whatever follows. -/
theorem getNALLoop_rejected (J : Joy5) (tail : List NAL) :
    ∀ (ps : List NAL) (printed : Bool) (cache : List Nat) (out : List SPSInfo),
      (∀ p ∈ ps, isParameterSet J p = true) → spsRejected J printed ps = true →
      getNALLoop J (ps ++ tail) printed cache out = .error .parseSPS := by
  intro ps
  induction ps with
  | nil =>
    intro printed cache out _ hr
    simp [spsRejected] at hr
  | cons nal ns ih =>
    intro printed cache out hall hr
    have hp : isParameterSet J nal = true := hall nal (List.mem_cons_self _ _)
    have hall1 : ∀ p ∈ ns, isParameterSet J p = true :=
      fun p hpm => hall p (List.mem_cons_of_mem _ hpm)
    cases printed with
    | true => simp [spsRejected_printed] at hr
    | false =>
      cases hs : (nal.UnitType == J.NALU_SPS) with
      | false =>
        rw [spsRejected_cons_other J false nal ns hs] at hr
        rw [List.cons_append, getNALLoop_param_step J nal (ns ++ tail) false false cache out out
          (reportDimensions_other J nal false out hs) hp]
        exact ih false _ out hall1 hr
      | true =>
        rw [spsRejected_cons_sps J nal ns hs] at hr
        have hparse : J.ParseSPS nal.Data = none := by
          cases h : J.ParseSPS nal.Data with
          | none => rfl
          | some info => simp [h] at hr
        exact getNALLoop_cons_rejected J nal (ns ++ tail) cache out hs hparse

/-- Every input is a run of parameter sets, either to its end or up to a
first unit that is not one. -/
theorem units_split (J : Joy5) (units : List NAL) :
    (∀ p ∈ units, isParameterSet J p = true) ∨
    ∃ ps u rest, units = ps ++ u :: rest ∧ (∀ p ∈ ps, isParameterSet J p = true) ∧
      isParameterSet J u = false ∧ ps = units.takeWhile (isParameterSet J) := by
  induction units with
  | nil => exact Or.inl (by simp)
  | cons nal ns ih =>
    cases hp : isParameterSet J nal with
    | false => exact Or.inr ⟨[], nal, ns, by simp, by simp, hp, by simp [List.takeWhile, hp]⟩
    | true =>
      rcases ih with hall | ⟨ps, u, rest, hsplit, hall, hu, htw⟩
      · left
        intro p hpm
        rcases List.mem_cons.1 hpm with h | h
        · rw [h]; exact hp
        · exact hall p h
      · right
        refine ⟨nal :: ps, u, rest, by rw [hsplit]; rfl, ?_, hu, by simp [List.takeWhile, hp, htw]⟩
        intro p hpm
        rcases List.mem_cons.1 hpm with h | h
        · rw [h]; exact hp
        · exact hall p h

/-- What a successful call of `getNAL` did: it read a run of accepted
parameter sets and one further unit, returned them behind the old cache,
and left the cache empty. -/
theorem getNAL_ok_inv (J : Joy5) (s s1 : Extractor) (au : List Nat)
    (h : getNAL J s = .ok (au, s1)) :
    ∃ ps u,
      s.h264Reader = ps ++ u :: s1.h264Reader ∧ (∀ p ∈ ps, isParameterSet J p = true) ∧
      isParameterSet J u = false ∧ spsRejected J s.printedVideoDimensions ps = false ∧
      au = s.SPSAndPPSCache ++ (ps.map annexB).flatten ++ annexB u ∧
      s1.SPSAndPPSCache = [] ∧
      s1.printedVideoDimensions = printedAfter J s.printedVideoDimensions ps := by
  unfold getNAL at h
  rcases units_split J s.h264Reader with hall | ⟨ps, u, rest, hsplit, hall, hu, _⟩
  · cases hr : spsRejected J s.printedVideoDimensions s.h264Reader with
    | false => rw [getNALLoop_params_end J _ _ _ _ hall hr] at h; cases h
    | true =>
      have := getNALLoop_rejected J [] s.h264Reader s.printedVideoDimensions
        s.SPSAndPPSCache s.stdout hall hr
      rw [List.append_nil] at this
      rw [this] at h; cases h
  · cases hr : spsRejected J s.printedVideoDimensions ps with
    | false =>
      obtain ⟨out1, h1⟩ := getNALLoop_params_slice J ps u rest s.printedVideoDimensions
        s.SPSAndPPSCache s.stdout hall hu hr
      rw [hsplit, h1] at h
      injection h with h
      injection h with hau hs1
      subst hs1
      exact ⟨ps, u, hsplit, hall, hu, hr, hau.symm, rfl, rfl⟩
    | true =>
      rw [hsplit, getNALLoop_rejected J (u :: rest) ps _ _ _ hall hr] at h
      cases h

/-- The three possible outcomes of a call, read off the input: the parse
panic, the end-of-stream panic, or an access unit. -/
theorem getNAL_cases (J : Joy5) (s : Extractor) :
    (spsRejected J s.printedVideoDimensions (s.h264Reader.takeWhile (isParameterSet J)) = true ∧
      getNAL J s = .error .parseSPS) ∨
    (spsRejected J s.printedVideoDimensions (s.h264Reader.takeWhile (isParameterSet J)) = false ∧
      (∀ u ∈ s.h264Reader, isParameterSet J u = true) ∧
      spsRejected J s.printedVideoDimensions s.h264Reader = false ∧
      getNAL J s = .error .nextNAL) ∨
    (spsRejected J s.printedVideoDimensions (s.h264Reader.takeWhile (isParameterSet J)) = false ∧
      (∃ u ∈ s.h264Reader, isParameterSet J u = false) ∧
      ∃ au s1, getNAL J s = .ok (au, s1)) := by
  unfold getNAL
  rcases units_split J s.h264Reader with hall | ⟨ps, u, rest, hsplit, hall, hu, htw⟩
  · have htw : s.h264Reader.takeWhile (isParameterSet J) = s.h264Reader :=
      List.takeWhile_eq_self_iff.2 hall
    rw [htw]
    cases hr : spsRejected J s.printedVideoDimensions s.h264Reader with
    | false =>
      exact Or.inr (Or.inl ⟨rfl, hall, rfl, getNALLoop_params_end J _ _ _ _ hall hr⟩)
    | true =>
      have := getNALLoop_rejected J [] s.h264Reader s.printedVideoDimensions
        s.SPSAndPPSCache s.stdout hall hr
      rw [List.append_nil] at this
      exact Or.inl ⟨rfl, this⟩
  · rw [← htw]
    cases hr : spsRejected J s.printedVideoDimensions ps with
    | false =>
      obtain ⟨out1, h1⟩ := getNALLoop_params_slice J ps u rest s.printedVideoDimensions
        s.SPSAndPPSCache s.stdout hall hu hr
      have hmem : u ∈ s.h264Reader := by rw [hsplit]; simp
      rw [hsplit]
      rw [hsplit] at hmem
      exact Or.inr (Or.inr ⟨rfl, ⟨u, hmem, hu⟩, _, _, h1⟩)
    | true =>
      refine Or.inl ⟨rfl, ?_⟩
      rw [hsplit]
      exact getNALLoop_rejected J (u :: rest) ps _ _ _ hall hr

theorem spsRejected_append (J : Joy5) (b : List NAL) :
    ∀ (a : List NAL) (printed : Bool), spsRejected J printed (a ++ b) = false →
      spsRejected J printed a = false ∧ spsRejected J (printedAfter J printed a) b = false := by
  intro a
  induction a with
  | nil =>
    intro printed h
    exact ⟨by simp [spsRejected], by simpa [printedAfter] using h⟩
  | cons nal ns ih =>
    intro printed h
    cases printed with
    | true => exact ⟨spsRejected_printed J _, by simp [printedAfter, spsRejected_printed]⟩
    | false =>
      cases hs : (nal.UnitType == J.NALU_SPS) with
      | false =>
        rw [List.cons_append, spsRejected_cons_other J false nal _ hs] at h
        rw [spsRejected_cons_other J false nal _ hs, printedAfter_cons]
        simpa [hs] using ih false h
      | true =>
        rw [List.cons_append, spsRejected_cons_sps J nal _ hs] at h
        rw [spsRejected_cons_sps J nal _ hs, printedAfter_cons]
        exact ⟨h, by simp [hs, printedAfter, spsRejected_printed]⟩

theorem unitsThrough_params_slice (J : Joy5) (n : Nat) (u : NAL) (rest : List NAL)
    (hu : isParameterSet J u = false) :
    ∀ ps : List NAL, (∀ p ∈ ps, isParameterSet J p = true) →
      unitsThrough J (n + 1) (ps ++ u :: rest) = ps ++ u :: unitsThrough J n rest := by
  intro ps
  induction ps with
  | nil => intro _; simp [unitsThrough, hu]
  | cons nal ns ih =>
    intro hall
    have hp : isParameterSet J nal = true := hall nal (List.mem_cons_self _ _)
    simp [unitsThrough, hp, ih (fun p hpm => hall p (List.mem_cons_of_mem _ hpm))]

theorem sliceCount_params_slice (J : Joy5) (ps : List NAL) (u : NAL) (rest : List NAL)
    (hall : ∀ p ∈ ps, isParameterSet J p = true) (hu : isParameterSet J u = false) :
    sliceCount J (ps ++ u :: rest) = sliceCount J rest + 1 := by
  have h0 : List.countP (fun nal => !isParameterSet J nal) ps = 0 := by
    rw [List.countP_eq_zero]
    intro p hpm
    simp [hall p hpm]
  simp [sliceCount, List.countP_append, List.countP_cons, h0, hu]

theorem sliceCount_params (J : Joy5) (ps : List NAL)
    (hall : ∀ p ∈ ps, isParameterSet J p = true) : sliceCount J ps = 0 := by
  unfold sliceCount
  rw [List.countP_eq_zero]
  intro p hpm
  simp [hall p hpm]

theorem getNALs_succ_ok (J : Joy5) (n : Nat) (s s1 : Extractor) (aus : List (List Nat)) :
    getNALs J (n + 1) s = .ok (aus, s1) ↔
      ∃ au s0 aus1, getNAL J s = .ok (au, s0) ∧ getNALs J n s0 = .ok (aus1, s1) ∧
        aus = au :: aus1 := by
  cases hg : getNAL J s with
  | error e => simp [getNALs, hg]
  | ok r =>
    obtain ⟨au, s0⟩ := r
    cases hgs : getNALs J n s0 with
    | error e => simp [getNALs, hg, hgs]
    | ok r1 =>
      obtain ⟨aus1, s2⟩ := r1
      simp only [getNALs, hg, hgs]
      constructor
      · intro h
        injection h with h
        injection h with h1 h2
        exact ⟨au, s0, aus1, rfl, by rw [← h2]; exact hgs, h1.symm⟩
      · rintro ⟨au1, s01, aus2, h1, h2, h3⟩
        injection h1 with h1
        injection h1 with h1a h1b
        subst h1a; subst h1b
        rw [hgs] at h2
        injection h2 with h2
        injection h2 with h2a h2b
        subst h2a; subst h2b
        rw [h3]

/-- What `n` successful calls returned, from an empty cache. -/
theorem getNALs_ok_inv (J : Joy5) :
    ∀ (n : Nat) (s s1 : Extractor) (aus : List (List Nat)),
      s.SPSAndPPSCache = [] → getNALs J n s = .ok (aus, s1) →
      aus.length = n ∧ n ≤ sliceCount J s.h264Reader ∧
      aus.flatten = ((unitsThrough J n s.h264Reader).map annexB).flatten ∧
      (∀ au ∈ aus, ∃ (ps : List NAL) (u : NAL), (∀ p ∈ ps, isParameterSet J p = true) ∧
        isParameterSet J u = false ∧ au = (ps.map annexB).flatten ++ annexB u) ∧
      s.h264Reader = unitsThrough J n s.h264Reader ++ s1.h264Reader ∧
      s1.SPSAndPPSCache = [] := by
  intro n
  induction n with
  | zero =>
    intro s s1 aus hc h
    simp only [getNALs] at h
    injection h with h
    injection h with h1 h2
    subst h1; subst h2
    simp [unitsThrough, hc]
  | succ n ih =>
    intro s s1 aus hc h
    obtain ⟨au, s0, aus1, hg, hgs, haus⟩ := (getNALs_succ_ok J n s s1 aus).1 h
    subst haus
    obtain ⟨ps, u, hsplit, hall, hu, _, hau, hc0, _⟩ := getNAL_ok_inv J s s0 au hg
    obtain ⟨hlen, hle, hflat, hshape, hrest, hc1⟩ := ih s0 s1 aus1 hc0 hgs
    rw [hc, List.nil_append] at hau
    rw [hsplit, unitsThrough_params_slice J n u _ hu ps hall,
      sliceCount_params_slice J ps u _ hall hu]
    refine ⟨by simp [hlen], by omega, ?_, ?_, ?_, hc1⟩
    · simp [hau, hflat, List.append_assoc]
    · intro a ha
      rcases List.mem_cons.1 ha with h | h
      · exact ⟨ps, u, hall, hu, by rw [h, hau]⟩
      · exact hshape a h
    · rw [List.append_assoc, List.cons_append, ← hrest]

/-- When no SPS is refused, every unit that is not a parameter set can be
obtained: `n` calls succeed as long as `n` is at most their number. -/
theorem getNALs_ok_of_le (J : Joy5) :
    ∀ (n : Nat) (s : Extractor),
      spsRejected J s.printedVideoDimensions s.h264Reader = false →
      n ≤ sliceCount J s.h264Reader → ∃ aus s1, getNALs J n s = .ok (aus, s1) := by
  intro n
  induction n with
  | zero => intro s _ _; exact ⟨[], s, rfl⟩
  | succ n ih =>
    intro s hr hle
    rcases units_split J s.h264Reader with hall | ⟨ps, u, rest, hsplit, hall, hu, _⟩
    · rw [sliceCount_params J _ hall] at hle
      omega
    · rw [hsplit] at hr hle
      rw [sliceCount_params_slice J ps u rest hall hu] at hle
      obtain ⟨hr1, hr2⟩ := spsRejected_append J (u :: rest) ps _ hr
      rw [spsRejected_cons_other J _ u rest (isParameterSet_false_sps J u hu)] at hr2
      obtain ⟨out1, h1⟩ := getNALLoop_params_slice J ps u rest s.printedVideoDimensions
        s.SPSAndPPSCache s.stdout hall hu hr1
      have hg : getNAL J s = .ok (s.SPSAndPPSCache ++ (ps.map annexB).flatten ++ annexB u,
          ⟨rest, printedAfter J s.printedVideoDimensions ps, [], out1⟩) := by
        unfold getNAL
        rw [hsplit]
        exact h1
      obtain ⟨aus, s1, hgs⟩ := ih ⟨rest, printedAfter J s.printedVideoDimensions ps, [], out1⟩
        hr2 (by simpa using hle)
      exact ⟨_ :: aus, s1, (getNALs_succ_ok J n s s1 _).2 ⟨_, _, aus, hg, hgs, rfl⟩⟩

/-! ## Properties of the extractor -/

/-- C1, as stated, fails: with an SPS payload that `ParseSPS` refuses (here
the single header byte `67`), the first call of `getNAL` on
`[SPS, PPS, SLICE1, SLICE2]` panics at line 123 and returns no access unit. -/
theorem getNAL_sps_pps_slice_rejected :
    getNAL sampleJoy5 (Extractor.init [⟨7, [0x67]⟩, ⟨8, [0x68]⟩, ⟨5, [0x65]⟩, ⟨1, [0x41]⟩]) =
      .error .parseSPS := by
  decide

/-- C1 (amended): when `ParseSPS` accepts the SPS payload (or the dimensions
were already printed), two calls of `getNAL` on `[SPS, PPS, SLICE1, SLICE2]`
from an empty cache return `00 00 01 SPS 00 00 01 PPS 00 00 01 SLICE1` and
then `00 00 01 SLICE2`, the reader and the cache are then empty and a third
call fails; and any non-empty run of parameter sets whose first SPS is
accepted, followed by a unit that is not a parameter set, gives one access
unit holding all of them in order followed by that unit. -/
theorem getNAL_sps_pps_slice_slice (J : Joy5) :
    (∀ (sps pps slice1 slice2 : NAL) (printed : Bool) (out : List SPSInfo),
      sps.UnitType = J.NALU_SPS → pps.UnitType = J.NALU_PPS →
      isParameterSet J slice1 = false → isParameterSet J slice2 = false →
      (printed = true ∨ (J.ParseSPS sps.Data).isSome = true) →
      ∃ s2, getNALs J 2 ⟨[sps, pps, slice1, slice2], printed, [], out⟩ =
          .ok ([[0, 0, 1] ++ sps.Data ++ ([0, 0, 1] ++ pps.Data) ++ ([0, 0, 1] ++ slice1.Data),
                [0, 0, 1] ++ slice2.Data], s2) ∧
        s2.h264Reader = [] ∧ s2.SPSAndPPSCache = [] ∧ getNAL J s2 = .error .nextNAL) ∧
    (∀ (ps : List NAL) (slice : NAL) (rest : List NAL) (printed : Bool) (out : List SPSInfo),
      ps ≠ [] → (∀ p ∈ ps, isParameterSet J p = true) → isParameterSet J slice = false →
      spsRejected J printed ps = false →
      ∃ s1, getNAL J ⟨ps ++ slice :: rest, printed, [], out⟩ =
          .ok ((ps.map annexB).flatten ++ annexB slice, s1) ∧
        s1.h264Reader = rest ∧ s1.SPSAndPPSCache = []) := by
  constructor
  · intro sps pps slice1 slice2 printed out hsps hpps h1 h2 hparse
    have hs : (sps.UnitType == J.NALU_SPS) = true := by simp [hsps]
    have hall : ∀ p ∈ [sps, pps], isParameterSet J p = true := by
      intro p hp
      rcases List.mem_cons.1 hp with h | h
      · rw [h]; simp [isParameterSet, hsps]
      · rw [List.mem_singleton.1 h]; simp [isParameterSet, hpps]
    have hr : spsRejected J printed [sps, pps] = false := by
      cases printed with
      | true => exact spsRejected_printed J _
      | false =>
        rw [spsRejected_cons_sps J sps _ hs]
        rcases hparse with h | h
        · cases h
        · cases hp : J.ParseSPS sps.Data with
          | none => rw [hp] at h; cases h
          | some info => rfl
    obtain ⟨out1, hfirst⟩ := getNALLoop_params_slice J [sps, pps] slice1 [slice2] printed [] out
      hall h1 hr
    have hsecond := getNALLoop_cons_slice J slice2 [] (printedAfter J printed [sps, pps]) [] out1 h2
    refine ⟨⟨[], printedAfter J printed [sps, pps], [], out1⟩, ?_, rfl, rfl, rfl⟩
    refine (getNALs_succ_ok J 1 _ _ _).2 ⟨_, _, [[] ++ annexB slice2], hfirst, ?_, ?_⟩
    · exact (getNALs_succ_ok J 0 _ _ _).2 ⟨_, _, [], hsecond, rfl, rfl⟩
    · simp [annexB, startCode]
  · intro ps slice rest printed out _ hall hu hr
    obtain ⟨out1, h1⟩ := getNALLoop_params_slice J ps slice rest printed [] out hall hu hr
    exact ⟨_, by simpa [getNAL] using h1, rfl, rfl⟩

/-- Instance of C1 (amended) on a stream with a four-byte SPS. -/
theorem getNAL_sps_pps_slice_slice_witness :
    ∃ s2, getNALs sampleJoy5 2
        ⟨[⟨7, [0x67, 0x42, 0x00, 0x1f]⟩, ⟨8, [0x68]⟩, ⟨5, [0x65]⟩, ⟨1, [0x41]⟩], false, [], []⟩ =
        .ok ([[0, 0, 1] ++ [0x67, 0x42, 0x00, 0x1f] ++ ([0, 0, 1] ++ [0x68]) ++ ([0, 0, 1] ++ [0x65]),
              [0, 0, 1] ++ [0x41]], s2) ∧
      s2.h264Reader = [] ∧ s2.SPSAndPPSCache = [] ∧ getNAL sampleJoy5 s2 = .error .nextNAL :=
  (getNAL_sps_pps_slice_slice sampleJoy5).1 ⟨7, [0x67, 0x42, 0x00, 0x1f]⟩ ⟨8, [0x68]⟩ ⟨5, [0x65]⟩
    ⟨1, [0x41]⟩ false [] rfl rfl (by decide) (by decide) (Or.inr (by decide))

/-- C2: on an input without SPS and PPS units, from an empty cache, the
first `i` calls of `getNAL` return the first `i` units, each behind the
start code `00 00 01` and nothing else, the cache stays empty, nothing is
printed, and the call after the last unit fails. -/
theorem getNAL_without_parameter_sets (J : Joy5) (units : List NAL) (printed : Bool)
    (out : List SPSInfo) (h : ∀ u ∈ units, isParameterSet J u = false) :
    (∀ i, i ≤ units.length →
      getNALs J i ⟨units, printed, [], out⟩ =
        .ok ((units.take i).map (fun u => [0, 0, 1] ++ u.Data),
          ⟨units.drop i, printed, [], out⟩)) ∧
    (∃ e, getNALs J (units.length + 1) ⟨units, printed, [], out⟩ = .error e) := by
  have key : ∀ (us : List NAL), (∀ u ∈ us, isParameterSet J u = false) →
      ∀ i, i ≤ us.length → getNALs J i ⟨us, printed, [], out⟩ =
        .ok ((us.take i).map (fun u => [0, 0, 1] ++ u.Data), ⟨us.drop i, printed, [], out⟩) := by
    intro us
    induction us with
    | nil =>
      intro _ i hi
      have : i = 0 := by simpa using hi
      subst this
      rfl
    | cons u rest ih =>
      intro hus i hi
      cases i with
      | zero => rfl
      | succ i =>
        have hg : getNAL J ⟨u :: rest, printed, [], out⟩ =
            .ok ([0, 0, 1] ++ u.Data, ⟨rest, printed, [], out⟩) := by
          have := getNALLoop_cons_slice J u rest printed [] out (hus u (List.mem_cons_self _ _))
          simpa [getNAL, annexB, startCode] using this
        have hrest := ih (fun v hv => hus v (List.mem_cons_of_mem _ hv)) i
          (by simpa using hi)
        exact (getNALs_succ_ok J i _ _ _).2 ⟨_, _, _, hg, hrest, by simp⟩
  refine ⟨key units h, ?_⟩
  cases hres : getNALs J (units.length + 1) ⟨units, printed, [], out⟩ with
  | error e => exact ⟨e, rfl⟩
  | ok r =>
    obtain ⟨aus, s1⟩ := r
    have hle := (getNALs_ok_inv J _ _ s1 aus rfl hres).2.1
    have hcount : sliceCount J units ≤ units.length := List.countP_le_length _
    simp only at hle
    omega

/-- Instance of C2: two calls on two slices. -/
theorem getNAL_without_parameter_sets_witness :
    getNALs sampleJoy5 2 ⟨[⟨5, [0x65, 0x88]⟩, ⟨1, [0x41]⟩], false, [], []⟩ =
      .ok ((([⟨5, [0x65, 0x88]⟩, ⟨1, [0x41]⟩] : List NAL).take 2).map
          (fun u => [0, 0, 1] ++ u.Data),
        ⟨([⟨5, [0x65, 0x88]⟩, ⟨1, [0x41]⟩] : List NAL).drop 2, false, [], []⟩) :=
  (getNAL_without_parameter_sets sampleJoy5 [⟨5, [0x65, 0x88]⟩, ⟨1, [0x41]⟩] false []
    (by decide)).1 2 (by decide)

/-- C3: `SPSAndPPSCache` is empty at program start; whatever it holds when
`getNAL` is entered, the returned access unit starts with all of it and the
cache is empty when `getNAL` returns; hence it is empty after any number of
calls on any input. -/
theorem cache_empty_at_return (J : Joy5) :
    (∀ input, (Extractor.init input).SPSAndPPSCache = []) ∧
    (∀ (s s1 : Extractor) (au : List Nat), getNAL J s = .ok (au, s1) →
      s1.SPSAndPPSCache = [] ∧ ∃ t, au = s.SPSAndPPSCache ++ t) ∧
    (∀ (input : List NAL) (n : Nat) (aus : List (List Nat)) (s1 : Extractor),
      getNALs J n (Extractor.init input) = .ok (aus, s1) → s1.SPSAndPPSCache = []) := by
  refine ⟨fun _ => rfl, ?_, ?_⟩
  · intro s s1 au h
    obtain ⟨ps, u, _, _, _, _, hau, hc, _⟩ := getNAL_ok_inv J s s1 au h
    exact ⟨hc, _, by rw [hau, List.append_assoc]⟩
  · intro input n aus s1 h
    exact (getNALs_ok_inv J n _ s1 aus rfl h).2.2.2.2.2

/-- Instance of C3: one call on `[PPS, SLICE]` entered with a cache that
already holds bytes. -/
theorem cache_empty_at_return_witness :
    (⟨[], false, [], []⟩ : Extractor).SPSAndPPSCache = [] ∧
      ∃ t, [9, 9, 0, 0, 1, 0x68, 0, 0, 1, 0x65] = [9, 9] ++ t :=
  (cache_empty_at_return sampleJoy5).2.1 ⟨[⟨8, [0x68]⟩, ⟨5, [0x65]⟩], false, [9, 9], []⟩
    ⟨[], false, [], []⟩ [9, 9, 0, 0, 1, 0x68, 0, 0, 1, 0x65] (by decide)

/-- C8, as stated, fails: the input `[SPS, SLICE]` holds a unit that is not
a parameter set, yet `getNAL` fails, and not with the reader's end of stream:
`ParseSPS` refuses the one-byte SPS and line 123 panics. -/
theorem getNAL_fails_before_slice :
    (∃ u ∈ ([⟨7, [0x67]⟩, ⟨5, [0x65]⟩] : List NAL), isParameterSet sampleJoy5 u = false) ∧
    getNAL sampleJoy5 (Extractor.init [⟨7, [0x67]⟩, ⟨5, [0x65]⟩]) = .error .parseSPS := by
  decide

/-- C8 (amended): `getNAL` has three outcomes.  It panics with the parser's
error exactly when, with the dimensions not yet printed, the first SPS of the
leading run of parameter sets is refused by `ParseSPS`.  It panics with the
reader's end of stream exactly when the remaining input holds only parameter
sets (in particular when it is empty) and no SPS is refused.  It returns an
access unit exactly when the remaining input holds a unit that is not a
parameter set and no SPS before it is refused; that access unit ends with
such a unit, so a parameter set is never returned alone. -/
theorem getNAL_outcome (J : Joy5) (s : Extractor) :
    (getNAL J s = .error .parseSPS ↔
      spsRejected J s.printedVideoDimensions
        (s.h264Reader.takeWhile (isParameterSet J)) = true) ∧
    (getNAL J s = .error .nextNAL ↔
      (∀ u ∈ s.h264Reader, isParameterSet J u = true) ∧
        spsRejected J s.printedVideoDimensions s.h264Reader = false) ∧
    ((∃ au s1, getNAL J s = .ok (au, s1)) ↔
      (∃ u ∈ s.h264Reader, isParameterSet J u = false) ∧
        spsRejected J s.printedVideoDimensions
          (s.h264Reader.takeWhile (isParameterSet J)) = false) ∧
    (∀ e, getNAL J s = .error e → e = .parseSPS ∨ e = .nextNAL) ∧
    (∀ au s1, getNAL J s = .ok (au, s1) →
      ∃ (ps : List NAL) (u : NAL), s.h264Reader = ps ++ u :: s1.h264Reader ∧
        (∀ p ∈ ps, isParameterSet J p = true) ∧ isParameterSet J u = false ∧
        au = s.SPSAndPPSCache ++ (ps.map annexB).flatten ++ annexB u) := by
  have hno : ∀ u ∈ s.h264Reader, isParameterSet J u = false →
      ¬ ∀ v ∈ s.h264Reader, isParameterSet J v = true := by
    intro u hu hf hall
    rw [hall u hu] at hf
    cases hf
  have htw : (∀ v ∈ s.h264Reader, isParameterSet J v = true) →
      s.h264Reader.takeWhile (isParameterSet J) = s.h264Reader :=
    fun hall => List.takeWhile_eq_self_iff.2 hall
  refine ⟨?_, ?_, ?_, ?_, ?_⟩
  · rcases getNAL_cases J s with ⟨hr, hg⟩ | ⟨hr, _, _, hg⟩ | ⟨hr, _, au, s1, hg⟩
    · simp [hr, hg]
    · simp [hr, hg]
    · simp [hr, hg]
  · rcases getNAL_cases J s with ⟨hr, hg⟩ | ⟨_, hall, hr, hg⟩ | ⟨_, ⟨u, hu, hf⟩, au, s1, hg⟩
    · rw [hg]
      constructor
      · intro h; cases h
      · rintro ⟨hall, hr1⟩
        rw [htw hall, hr1] at hr
        cases hr
    · simp only [hg, true_iff]
      exact ⟨hall, hr⟩
    · rw [hg]
      constructor
      · intro h; cases h
      · rintro ⟨hall, _⟩
        exact absurd hall (hno u hu hf)
  · rcases getNAL_cases J s with ⟨hr, hg⟩ | ⟨_, hall, _, hg⟩ | ⟨hr, hex, au, s1, hg⟩
    · rw [hg, hr]
      constructor
      · rintro ⟨au, s1, h⟩; cases h
      · rintro ⟨_, h⟩; cases h
    · rw [hg]
      constructor
      · rintro ⟨au, s1, h⟩; cases h
      · rintro ⟨⟨u, hu, hf⟩, _⟩
        exact absurd hall (hno u hu hf)
    · exact ⟨fun _ => ⟨hex, hr⟩, fun _ => ⟨au, s1, hg⟩⟩
  · intro e he
    rcases getNAL_cases J s with ⟨_, hg⟩ | ⟨_, _, _, hg⟩ | ⟨_, _, au, s1, hg⟩
    · rw [hg] at he; injection he with he; exact Or.inl he.symm
    · rw [hg] at he; injection he with he; exact Or.inr he.symm
    · rw [hg] at he; cases he
  · intro au s1 hg
    obtain ⟨ps, u, hsplit, hall, hu, _, hau, _, _⟩ := getNAL_ok_inv J s s1 au hg
    exact ⟨ps, u, hsplit, hall, hu, hau⟩

/-- Instance of C8 (amended): trailing parameter sets after the last slice
are consumed and the call fails with the reader's end of stream. -/
theorem getNAL_outcome_witness :
    getNAL sampleJoy5 ⟨[⟨7, [0x67, 0x42, 0x00, 0x1f]⟩, ⟨8, [0x68]⟩], false, [], []⟩ =
      .error .nextNAL :=
  (getNAL_outcome sampleJoy5 ⟨[⟨7, [0x67, 0x42, 0x00, 0x1f]⟩, ⟨8, [0x68]⟩], false, [], []⟩).2.1.2
    (by decide)

/-- C10, as stated, fails in its last part: the input `[SLICE, SPS, SLICE]`
holds two units that are not parameter sets, but only one access unit can be
obtained, because the second call panics on the SPS that `ParseSPS` refuses. -/
theorem getNALs_fewer_than_slices :
    sliceCount sampleJoy5 [⟨5, [0x65]⟩, ⟨7, [0x67]⟩, ⟨1, [0x41]⟩] = 2 ∧
    getNALs sampleJoy5 1 (Extractor.init [⟨5, [0x65]⟩, ⟨7, [0x67]⟩, ⟨1, [0x41]⟩]) =
      .ok ([[0, 0, 1, 0x65]], ⟨[⟨7, [0x67]⟩, ⟨1, [0x41]⟩], false, [], []⟩) ∧
    getNALs sampleJoy5 2 (Extractor.init [⟨5, [0x65]⟩, ⟨7, [0x67]⟩, ⟨1, [0x41]⟩]) =
      .error .parseSPS := by
  decide

/-- C10 (amended): if the first `n` calls of `getNAL` succeed from an empty
cache, they return `n` access units whose concatenation is the concatenation
of `00 00 01 ++ payload` over the prefix of the input that ends at its
`n`-th unit that is not a parameter set, each access unit is a run of
parameter sets followed by exactly one unit that is not one, what is left in
the reader is the rest of the input, and `n` is at most the number of units
that are not parameter sets; every such `n` is reached when `ParseSPS` does
not refuse the first SPS of the input, and no larger `n` ever is. -/
theorem getNALs_preserve_units (J : Joy5) (input : List NAL) :
    (∀ (n : Nat) (aus : List (List Nat)) (s1 : Extractor),
      getNALs J n (Extractor.init input) = .ok (aus, s1) →
      aus.length = n ∧ n ≤ sliceCount J input ∧
      aus.flatten = ((unitsThrough J n input).map (fun u => [0, 0, 1] ++ u.Data)).flatten ∧
      (∀ au ∈ aus, ∃ (ps : List NAL) (u : NAL), (∀ p ∈ ps, isParameterSet J p = true) ∧
        isParameterSet J u = false ∧
        au = (ps.map (fun p => [0, 0, 1] ++ p.Data)).flatten ++ ([0, 0, 1] ++ u.Data)) ∧
      input = unitsThrough J n input ++ s1.h264Reader) ∧
    (spsRejected J false input = false → ∀ n, n ≤ sliceCount J input →
      ∃ aus s1, getNALs J n (Extractor.init input) = .ok (aus, s1)) ∧
    (∀ n, sliceCount J input < n → ∃ e, getNALs J n (Extractor.init input) = .error e) := by
  refine ⟨?_, ?_, ?_⟩
  · intro n aus s1 h
    obtain ⟨hlen, hle, hflat, hshape, hrest, _⟩ := getNALs_ok_inv J n _ s1 aus rfl h
    exact ⟨hlen, hle, hflat, hshape, hrest⟩
  · intro hr n hle
    exact getNALs_ok_of_le J n (Extractor.init input) hr hle
  · intro n hlt
    cases hres : getNALs J n (Extractor.init input) with
    | error e => exact ⟨e, rfl⟩
    | ok r =>
      obtain ⟨aus, s1⟩ := r
      have hle := (getNALs_ok_inv J n _ s1 aus rfl hres).2.1
      simp only [Extractor.init] at hle
      omega

/-- Instance of C10 (amended): `[SPS, PPS, SLICE, PPS, SLICE]` with an
accepted SPS gives two access units. -/
theorem getNALs_preserve_units_witness :
    ∃ aus s1, getNALs sampleJoy5 2 (Extractor.init
      [⟨7, [0x67, 0x42, 0x00, 0x1f]⟩, ⟨8, [0x68]⟩, ⟨5, [0x65]⟩, ⟨8, [0x68]⟩, ⟨1, [0x41]⟩]) =
        .ok (aus, s1) :=
  (getNALs_preserve_units sampleJoy5
    [⟨7, [0x67, 0x42, 0x00, 0x1f]⟩, ⟨8, [0x68]⟩, ⟨5, [0x65]⟩, ⟨8, [0x68]⟩, ⟨1, [0x41]⟩]).2.1
    (by decide) 2 (by decide)

/-! ## Lemmas on the transcode loop -/

/-- Effect of `initVideoEncoding` on the fields the loop depends on. -/
theorem initVideoEncoding_effect (lib : Nat → Reply) (s : Pipeline) :
    (initVideoEncoding lib s).trace =
        s.trace ++ [Event.initVideoEncoding s.encodeCodecContext.isNone] ∧
    (initVideoEncoding lib s).pts = s.pts ∧
    (initVideoEncoding lib s).outFile = s.outFile ∧
    (initVideoEncoding lib s).loc = s.loc ∧
    (initVideoEncoding lib s).extractor = s.extractor ∧
    (s.encodeCodecContext.isSome = true →
      (initVideoEncoding lib s).encodeCodecContext = s.encodeCodecContext ∧
      (initVideoEncoding lib s).panic = s.panic) ∧
    (s.encodeCodecContext.isSome = false →
      (initVideoEncoding lib s).panic.isSome = true ∨
      (initVideoEncoding lib s).encodeCodecContext.isSome = true) := by
  unfold initVideoEncoding
  cases hctx : s.encodeCodecContext with
  | some c => simp
  | none =>
    simp only [Option.isSome_none, Bool.false_eq_true, if_false, Option.isNone_none]
    split_ifs <;> simp

theorem submit_error (J : Joy5) (lib : Nat → Reply) (s : Pipeline) (p : Panic)
    (hg : getNAL J s.extractor = .error p) :
    submit J lib s = { s with panic := some p } := by
  simp only [submit, hg]

theorem submit_fromData (J : Joy5) (lib : Nat → Reply) (s : Pipeline) (au : List Nat)
    (ex : Extractor) (hg : getNAL J s.extractor = .ok (au, ex))
    (h1 : (lib s.calls).err ≠ .nil) :
    submit J lib s =
      { s with extractor := ex, trace := s.trace ++ [Event.getNAL au],
               calls := s.calls + 1, panic := some .fromData } := by
  simp only [submit, hg, h1, ne_eq, not_false_eq_true, if_true]

theorem submit_sendPacket (J : Joy5) (lib : Nat → Reply) (s : Pipeline) (au : List Nat)
    (ex : Extractor) (hg : getNAL J s.extractor = .ok (au, ex))
    (h1 : (lib s.calls).err = .nil) (h2 : (lib (s.calls + 1)).err ≠ .nil) :
    submit J lib s =
      { s with extractor := ex, trace := s.trace ++ [Event.getNAL au] ++ [Event.SendPacket au],
               calls := s.calls + 2, decodeCodecContext := (lib (s.calls + 1)).decoder,
               panic := some .sendPacket } := by
  simp only [submit, hg, h1, h2, ne_eq, not_true_eq_false, not_false_eq_true, if_true, if_false]

theorem submit_ok (J : Joy5) (lib : Nat → Reply) (s : Pipeline) (au : List Nat)
    (ex : Extractor) (hg : getNAL J s.extractor = .ok (au, ex))
    (h1 : (lib s.calls).err = .nil) (h2 : (lib (s.calls + 1)).err = .nil) :
    submit J lib s =
      { s with extractor := ex, trace := s.trace ++ [Event.getNAL au] ++ [Event.SendPacket au],
               calls := s.calls + 2, decodeCodecContext := (lib (s.calls + 1)).decoder,
               loc := .pullFrame } := by
  simp only [submit, hg, h1, h2, ne_eq, not_true_eq_false, if_false]

theorem pullFrame_drained (lib : Nat → Reply) (s : Pipeline)
    (he : (lib s.calls).err.drained = true) :
    pullFrame lib s =
      { s with calls := s.calls + 1, decodeCodecContext := (lib s.calls).decoder,
               trace := s.trace ++ [Event.ReceiveFrame (lib s.calls).err], loc := .submit } := by
  unfold pullFrame
  cases h : (lib s.calls).err with
  | nil => rw [h] at he; simp [AvError.drained] at he
  | other => rw [h] at he; simp [AvError.drained] at he
  | eof => simp only [h]
  | eagain => simp only [h]

theorem pullFrame_other (lib : Nat → Reply) (s : Pipeline)
    (he : (lib s.calls).err = .other) :
    pullFrame lib s =
      { s with calls := s.calls + 1, decodeCodecContext := (lib s.calls).decoder,
               trace := s.trace ++ [Event.ReceiveFrame .other],
               panic := some .receiveFrame } := by
  simp only [pullFrame, he]

theorem pullFrame_initPanic (lib : Nat → Reply) (s : Pipeline)
    (he : (lib s.calls).err = .nil)
    (hi : (initVideoEncoding lib (frameReceived lib s)).panic.isSome = true) :
    pullFrame lib s = initVideoEncoding lib (frameReceived lib s) := by
  simp only [pullFrame, he]
  simp only [frameReceived] at hi
  simp only [hi, if_true, frameReceived]

theorem pullFrame_scaleFrame (lib : Nat → Reply) (s : Pipeline)
    (he : (lib s.calls).err = .nil)
    (hi : (initVideoEncoding lib (frameReceived lib s)).panic.isSome = false)
    (hs : (lib (initVideoEncoding lib (frameReceived lib s)).calls).err ≠ .nil) :
    pullFrame lib s =
      { initVideoEncoding lib (frameReceived lib s) with
        calls := (initVideoEncoding lib (frameReceived lib s)).calls + 1
        trace := (initVideoEncoding lib (frameReceived lib s)).trace ++ [Event.ScaleFrame]
        panic := some .scaleFrame } := by
  simp only [pullFrame, he]
  simp only [frameReceived] at hi hs
  simp only [hi, hs, Bool.false_eq_true, if_false, ne_eq, not_false_eq_true, if_true,
    frameReceived]

theorem pullFrame_sendFrame (lib : Nat → Reply) (s : Pipeline)
    (he : (lib s.calls).err = .nil)
    (hi : (initVideoEncoding lib (frameReceived lib s)).panic.isSome = false)
    (hs : (lib (initVideoEncoding lib (frameReceived lib s)).calls).err = .nil) :
    pullFrame lib s =
      { initVideoEncoding lib (frameReceived lib s) with
        pts := wrapInt64 ((initVideoEncoding lib (frameReceived lib s)).pts + 1)
        scaledFrame := (initVideoEncoding lib (frameReceived lib s)).scaledFrame.map
          (fun _ => wrapInt64 ((initVideoEncoding lib (frameReceived lib s)).pts + 1))
        calls := (initVideoEncoding lib (frameReceived lib s)).calls + 1 + 1
        trace := (initVideoEncoding lib (frameReceived lib s)).trace ++ [Event.ScaleFrame] ++
          [Event.SendFrame (wrapInt64 ((initVideoEncoding lib (frameReceived lib s)).pts + 1))]
        panic := if (lib ((initVideoEncoding lib (frameReceived lib s)).calls + 1)).err ≠ .nil
          then some .sendFrame else (initVideoEncoding lib (frameReceived lib s)).panic
        loc := if (lib ((initVideoEncoding lib (frameReceived lib s)).calls + 1)).err ≠ .nil
          then (initVideoEncoding lib (frameReceived lib s)).loc else .pullPacket } := by
  simp only [pullFrame, he]
  simp only [frameReceived] at hi hs
  simp only [hi, hs, Bool.false_eq_true, if_false, ne_eq, not_true_eq_false, frameReceived]
  split_ifs <;> rfl

theorem pullPacket_drained (lib : Nat → Reply) (s : Pipeline)
    (he : (lib s.calls).err.drained = true) :
    pullPacket lib s =
      { s with calls := s.calls + 1,
               trace := s.trace ++ [Event.ReceivePacket (lib s.calls).err (lib s.calls).data],
               loc := .pullFrame } := by
  unfold pullPacket
  cases h : (lib s.calls).err with
  | nil => rw [h] at he; simp [AvError.drained] at he
  | other => rw [h] at he; simp [AvError.drained] at he
  | eof => simp only [h]
  | eagain => simp only [h]

theorem pullPacket_other (lib : Nat → Reply) (s : Pipeline)
    (he : (lib s.calls).err = .other) :
    pullPacket lib s =
      { s with calls := s.calls + 1,
               trace := s.trace ++ [Event.ReceivePacket .other (lib s.calls).data],
               panic := some .receivePacket } := by
  simp only [pullPacket, he]

theorem pullPacket_writeFailed (lib : Nat → Reply) (s : Pipeline)
    (he : (lib s.calls).err = .nil) (hw : (lib (s.calls + 1)).err ≠ .nil) :
    pullPacket lib s =
      { s with calls := s.calls + 1 + 1,
               trace := s.trace ++ [Event.ReceivePacket .nil (lib s.calls).data] ++
                 [Event.Write (lib s.calls).data],
               outFile := s.outFile ++ (lib s.calls).data.take (lib (s.calls + 1)).written,
               panic := some .write } := by
  simp only [pullPacket, he, hw, ne_eq, not_false_eq_true, if_true]

theorem pullPacket_written (lib : Nat → Reply) (s : Pipeline)
    (he : (lib s.calls).err = .nil) (hw : (lib (s.calls + 1)).err = .nil) :
    pullPacket lib s =
      { s with calls := s.calls + 1 + 1,
               trace := s.trace ++ [Event.ReceivePacket .nil (lib s.calls).data] ++
                 [Event.Write (lib s.calls).data],
               outFile := s.outFile ++ (lib s.calls).data } := by
  simp only [pullPacket, he, hw, ne_eq, not_true_eq_false, if_false]

/-- What one turn of the outer loop does (lines 58-66). -/
theorem submit_shape (J : Joy5) (lib : Nat → Reply) (s : Pipeline) :
    (submit J lib s).pts = s.pts ∧
    (submit J lib s).outFile = s.outFile ∧
    (submit J lib s).encodeCodecContext = s.encodeCodecContext ∧
    ((∃ p, getNAL J s.extractor = .error p ∧ (submit J lib s).trace = s.trace ∧
        (submit J lib s).panic = some p) ∨
     (∃ au ex, getNAL J s.extractor = .ok (au, ex) ∧
        (submit J lib s).extractor = ex ∧
        (((submit J lib s).trace = s.trace ++ [Event.getNAL au] ∧
            (submit J lib s).panic = some .fromData) ∨
         ((submit J lib s).trace = s.trace ++ [Event.getNAL au, Event.SendPacket au] ∧
            (submit J lib s).panic = some .sendPacket) ∨
         ((submit J lib s).trace = s.trace ++ [Event.getNAL au, Event.SendPacket au] ∧
            (submit J lib s).panic = s.panic ∧ (submit J lib s).loc = .pullFrame)))) := by
  cases hg : getNAL J s.extractor with
  | error p =>
    rw [submit_error J lib s p hg]
    exact ⟨rfl, rfl, rfl, Or.inl ⟨p, rfl, rfl, rfl⟩⟩
  | ok r =>
    obtain ⟨au, ex⟩ := r
    by_cases h1 : (lib s.calls).err = .nil
    · by_cases h2 : (lib (s.calls + 1)).err = .nil
      · rw [submit_ok J lib s au ex hg h1 h2]
        exact ⟨rfl, rfl, rfl, Or.inr ⟨au, ex, rfl, rfl,
          Or.inr (Or.inr ⟨by simp, rfl, rfl⟩)⟩⟩
      · rw [submit_sendPacket J lib s au ex hg h1 h2]
        exact ⟨rfl, rfl, rfl, Or.inr ⟨au, ex, rfl, rfl, Or.inr (Or.inl ⟨by simp, rfl⟩)⟩⟩
    · rw [submit_fromData J lib s au ex hg h1]
      exact ⟨rfl, rfl, rfl, Or.inr ⟨au, ex, rfl, rfl, Or.inl ⟨rfl, rfl⟩⟩⟩

/-- What one turn of the frame loop does (lines 69-92). -/
theorem pullFrame_shape (lib : Nat → Reply) (s : Pipeline) (hp : s.panic = none) :
    (pullFrame lib s).outFile = s.outFile ∧
    (pullFrame lib s).extractor = s.extractor ∧
    ((∃ e, e.drained = true ∧ (lib s.calls).err = e ∧
        (pullFrame lib s).trace = s.trace ++ [Event.ReceiveFrame e] ∧
        (pullFrame lib s).panic = none ∧ (pullFrame lib s).loc = .submit ∧
        (pullFrame lib s).pts = s.pts ∧
        (pullFrame lib s).encodeCodecContext = s.encodeCodecContext) ∨
     ((pullFrame lib s).trace = s.trace ++ [Event.ReceiveFrame .other] ∧
        (pullFrame lib s).panic = some .receiveFrame ∧ (pullFrame lib s).pts = s.pts ∧
        (pullFrame lib s).encodeCodecContext = s.encodeCodecContext) ∨
     ((pullFrame lib s).trace =
          s.trace ++ [Event.ReceiveFrame .nil, Event.initVideoEncoding true] ∧
        s.encodeCodecContext = none ∧
        (pullFrame lib s).panic.isSome = true ∧ (pullFrame lib s).pts = s.pts) ∨
     ((pullFrame lib s).trace =
          s.trace ++ [Event.ReceiveFrame .nil,
            Event.initVideoEncoding s.encodeCodecContext.isNone, Event.ScaleFrame] ∧
        (pullFrame lib s).encodeCodecContext.isSome = true ∧
        (pullFrame lib s).panic = some .scaleFrame ∧ (pullFrame lib s).pts = s.pts) ∨
     ((pullFrame lib s).trace =
          s.trace ++ [Event.ReceiveFrame .nil,
            Event.initVideoEncoding s.encodeCodecContext.isNone, Event.ScaleFrame,
            Event.SendFrame (wrapInt64 (s.pts + 1))] ∧
        (pullFrame lib s).encodeCodecContext.isSome = true ∧
        (pullFrame lib s).pts = wrapInt64 (s.pts + 1) ∧
        ((pullFrame lib s).panic = some .sendFrame ∨
          ((pullFrame lib s).panic = none ∧ (pullFrame lib s).loc = .pullPacket)))) := by
  by_cases hd : (lib s.calls).err.drained = true
  · rw [pullFrame_drained lib s hd]
    exact ⟨rfl, rfl, Or.inl ⟨_, hd, rfl, rfl, hp, rfl, rfl, rfl⟩⟩
  cases he : (lib s.calls).err with
  | eagain => rw [he] at hd; simp [AvError.drained] at hd
  | eof => rw [he] at hd; simp [AvError.drained] at hd
  | other =>
    rw [pullFrame_other lib s he]
    exact ⟨rfl, rfl, Or.inr (Or.inl ⟨rfl, rfl, rfl, rfl⟩)⟩
  | nil =>
    obtain ⟨ht, hpts, hout, _, hext, hsome, hnone⟩ :=
      initVideoEncoding_effect lib (frameReceived lib s)
    have hctx : (frameReceived lib s).encodeCodecContext = s.encodeCodecContext := rfl
    have hpan0 : (frameReceived lib s).panic = none := hp
    rw [hctx] at ht hsome hnone
    have htr : (initVideoEncoding lib (frameReceived lib s)).trace =
        s.trace ++ [Event.ReceiveFrame .nil,
          Event.initVideoEncoding s.encodeCodecContext.isNone] := by
      rw [ht]; simp [frameReceived]
    have hpts1 : (initVideoEncoding lib (frameReceived lib s)).pts = s.pts := hpts
    have hout1 : (initVideoEncoding lib (frameReceived lib s)).outFile = s.outFile := hout
    have hext1 : (initVideoEncoding lib (frameReceived lib s)).extractor = s.extractor := hext
    cases hi : (initVideoEncoding lib (frameReceived lib s)).panic.isSome with
    | true =>
      rw [pullFrame_initPanic lib s he hi]
      have hnoctx : s.encodeCodecContext = none := by
        cases hc : s.encodeCodecContext with
        | none => rfl
        | some c =>
          have := (hsome (by simp [hc])).2
          rw [this, hpan0] at hi
          cases hi
      refine ⟨hout1, hext1, Or.inr (Or.inr (Or.inl ⟨?_, hnoctx, hi, hpts1⟩))⟩
      rw [htr, hnoctx]
      rfl
    | false =>
      have hctx1 : (initVideoEncoding lib (frameReceived lib s)).encodeCodecContext.isSome
          = true := by
        cases hc : s.encodeCodecContext with
        | none =>
          rcases hnone (by simp [hc]) with h | h
          · rw [hi] at h; cases h
          · exact h
        | some c =>
          rw [(hsome (by simp [hc])).1, hc]
          rfl
      have hpan1 : (initVideoEncoding lib (frameReceived lib s)).panic = none := by
        cases h : (initVideoEncoding lib (frameReceived lib s)).panic with
        | none => rfl
        | some p => rw [h] at hi; cases hi
      by_cases hs : (lib (initVideoEncoding lib (frameReceived lib s)).calls).err = .nil
      · rw [pullFrame_sendFrame lib s he hi hs]
        refine ⟨hout1, hext1, Or.inr (Or.inr (Or.inr (Or.inr ⟨?_, hctx1, ?_, ?_⟩)))⟩
        · simp only [htr, hpts1, List.append_assoc, List.cons_append, List.nil_append]
        · simp only [hpts1]
        · by_cases hf : (lib ((initVideoEncoding lib (frameReceived lib s)).calls + 1)).err
              = .nil
          · right
            simp only [hf, ne_eq, not_true_eq_false, if_false]
            exact ⟨hpan1, trivial⟩
          · left
            simp only [hf, ne_eq, not_false_eq_true, if_true]
      · rw [pullFrame_scaleFrame lib s he hi hs]
        refine ⟨hout1, hext1, Or.inr (Or.inr (Or.inr (Or.inl ⟨?_, hctx1, rfl, hpts1⟩)))⟩
        simp only [htr, List.append_assoc, List.cons_append, List.nil_append]

/-- What one turn of the packet loop does (lines 95-106). -/
theorem pullPacket_shape (lib : Nat → Reply) (s : Pipeline) :
    (pullPacket lib s).pts = s.pts ∧
    (pullPacket lib s).encodeCodecContext = s.encodeCodecContext ∧
    (pullPacket lib s).extractor = s.extractor ∧
    ((∃ e, e.drained = true ∧
        (pullPacket lib s).trace = s.trace ++ [Event.ReceivePacket e (lib s.calls).data] ∧
        (pullPacket lib s).panic = s.panic ∧ (pullPacket lib s).loc = .pullFrame ∧
        (pullPacket lib s).outFile = s.outFile) ∨
     ((pullPacket lib s).trace = s.trace ++ [Event.ReceivePacket .other (lib s.calls).data] ∧
        (pullPacket lib s).panic = some .receivePacket ∧
        (pullPacket lib s).outFile = s.outFile) ∨
     (∃ n, (pullPacket lib s).trace = s.trace ++ [Event.ReceivePacket .nil (lib s.calls).data,
            Event.Write (lib s.calls).data] ∧
        (pullPacket lib s).panic = some .write ∧
        (pullPacket lib s).outFile = s.outFile ++ (lib s.calls).data.take n) ∨
     ((pullPacket lib s).trace = s.trace ++ [Event.ReceivePacket .nil (lib s.calls).data,
            Event.Write (lib s.calls).data] ∧
        (pullPacket lib s).panic = s.panic ∧ (pullPacket lib s).loc = s.loc ∧
        (pullPacket lib s).outFile = s.outFile ++ (lib s.calls).data)) := by
  by_cases hd : (lib s.calls).err.drained = true
  · rw [pullPacket_drained lib s hd]
    exact ⟨rfl, rfl, rfl, Or.inl ⟨_, hd, rfl, rfl, rfl, rfl⟩⟩
  cases he : (lib s.calls).err with
  | eagain => rw [he] at hd; simp [AvError.drained] at hd
  | eof => rw [he] at hd; simp [AvError.drained] at hd
  | other =>
    rw [pullPacket_other lib s he]
    exact ⟨rfl, rfl, rfl, Or.inr (Or.inl ⟨rfl, rfl, rfl⟩)⟩
  | nil =>
    by_cases hw : (lib (s.calls + 1)).err = .nil
    · rw [pullPacket_written lib s he hw]
      exact ⟨rfl, rfl, rfl, Or.inr (Or.inr (Or.inr ⟨by simp, rfl, rfl, rfl⟩))⟩
    · rw [pullPacket_writeFailed lib s he hw]
      exact ⟨rfl, rfl, rfl, Or.inr (Or.inr (Or.inl ⟨_, by simp, rfl, rfl⟩))⟩

/-- A property that holds at the start and is kept by every loop turn of a
running program holds after any number of turns. -/
theorem run_invariant (J : Joy5) (lib : Nat → Reply) (P : Pipeline → Prop)
    (hstep : ∀ s, P s → s.panic = none → P (step J lib s)) :
    ∀ (n : Nat) (s : Pipeline), P s → P (run J lib n s) := by
  intro n
  induction n with
  | zero => intro s h; exact h
  | succ n ih =>
    intro s h
    apply ih
    cases hp : s.panic with
    | none => exact hstep s h hp
    | some p =>
      have : step J lib s = s := by simp [step, hp]
      rw [this]
      exact h

theorem step_of_running (J : Joy5) (lib : Nat → Reply) (s : Pipeline) (hp : s.panic = none) :
    step J lib s =
      match s.loc with
      | .submit => submit J lib s
      | .pullFrame => pullFrame lib s
      | .pullPacket => pullPacket lib s := by
  simp [step, hp]

theorem wrapInt64_succ (x : Int) : wrapInt64 (wrapInt64 x + 1) = wrapInt64 (x + 1) := by
  unfold wrapInt64
  omega

theorem wrapInt64_small (x : Int) (h0 : 0 ≤ x) (h1 : x < 9223372036854775808) :
    wrapInt64 x = x := by
  unfold wrapInt64
  omega

theorem sentPts_append (a b : List Event) : sentPts (a ++ b) = sentPts a ++ sentPts b := by
  simp [sentPts, List.filterMap_append]

theorem initRuns_append (a b : List Event) : initRuns (a ++ b) = initRuns a ++ initRuns b := by
  simp [initRuns, List.filterMap_append]

theorem framesDecoded_append (a b : List Event) :
    framesDecoded (a ++ b) = framesDecoded a + framesDecoded b := by
  simp [framesDecoded, List.countP_append]

theorem ptsInv_step (J : Joy5) (lib : Nat → Reply) (s : Pipeline) (h : ptsInv s)
    (hp : s.panic = none) : ptsInv (step J lib s) := by
  obtain ⟨h1, h2⟩ := h
  rw [step_of_running J lib s hp]
  cases hl : s.loc with
  | submit =>
    simp only
    obtain ⟨hpts, _, _, hcase⟩ := submit_shape J lib s
    have hsent : sentPts (submit J lib s).trace = sentPts s.trace := by
      rcases hcase with ⟨p, _, ht, _⟩ | ⟨au, ex, _, _, ⟨ht, _⟩ | ⟨ht, _⟩ | ⟨ht, _⟩⟩ <;>
        simp [ht, sentPts_append, sentPts]
    exact ⟨by rw [hpts, hsent]; exact h1, by rw [hsent]; exact h2⟩
  | pullPacket =>
    simp only
    obtain ⟨hpts, _, _, hcase⟩ := pullPacket_shape lib s
    have hsent : sentPts (pullPacket lib s).trace = sentPts s.trace := by
      rcases hcase with ⟨e, _, ht, _⟩ | ⟨ht, _⟩ | ⟨n, ht, _⟩ | ⟨ht, _⟩ <;>
        simp [ht, sentPts_append, sentPts]
    exact ⟨by rw [hpts, hsent]; exact h1, by rw [hsent]; exact h2⟩
  | pullFrame =>
    simp only
    obtain ⟨_, _, hcase⟩ := pullFrame_shape lib s hp
    rcases hcase with ⟨e, _, _, ht, _, _, hpts, _⟩ | ⟨ht, _, hpts, _⟩ | ⟨ht, _, _, hpts⟩ |
      ⟨ht, _, _, hpts⟩ | ⟨ht, _, hpts, _⟩
    · have hsent : sentPts (pullFrame lib s).trace = sentPts s.trace := by
        simp [ht, sentPts_append, sentPts]
      exact ⟨by rw [hpts, hsent]; exact h1, by rw [hsent]; exact h2⟩
    · have hsent : sentPts (pullFrame lib s).trace = sentPts s.trace := by
        simp [ht, sentPts_append, sentPts]
      exact ⟨by rw [hpts, hsent]; exact h1, by rw [hsent]; exact h2⟩
    · have hsent : sentPts (pullFrame lib s).trace = sentPts s.trace := by
        simp [ht, sentPts_append, sentPts]
      exact ⟨by rw [hpts, hsent]; exact h1, by rw [hsent]; exact h2⟩
    · have hsent : sentPts (pullFrame lib s).trace = sentPts s.trace := by
        simp [ht, sentPts_append, sentPts]
      exact ⟨by rw [hpts, hsent]; exact h1, by rw [hsent]; exact h2⟩
    · have hsent : sentPts (pullFrame lib s).trace =
          sentPts s.trace ++ [wrapInt64 (s.pts + 1)] := by
        simp [ht, sentPts_append, sentPts]
      have hnext : wrapInt64 (s.pts + 1) = wrapInt64 (((sentPts s.trace).length : Int) + 1) := by
        rw [h1, wrapInt64_succ]
      refine ⟨?_, ?_⟩
      · rw [hpts, hsent, hnext]
        simp
      · rw [hsent, hnext]
        simp only [List.length_append, List.length_singleton, List.range_succ, List.map_append,
          List.map_cons, List.map_nil]
        rw [← h2]

theorem initInv_step (J : Joy5) (lib : Nat → Reply) (s : Pipeline) (h : initInv s)
    (hp : s.panic = none) : initInv (step J lib s) := by
  obtain ⟨h1, h2⟩ := h
  have h2 := h2 hp
  rw [step_of_running J lib s hp]
  cases hl : s.loc with
  | submit =>
    simp only
    obtain ⟨_, _, hctx, hcase⟩ := submit_shape J lib s
    have hruns : initRuns (submit J lib s).trace = initRuns s.trace ∧
        framesDecoded (submit J lib s).trace = framesDecoded s.trace := by
      rcases hcase with ⟨p, _, ht, _⟩ | ⟨au, ex, _, _, ⟨ht, _⟩ | ⟨ht, _⟩ | ⟨ht, _⟩⟩ <;>
        simp [ht, initRuns_append, initRuns, framesDecoded_append, framesDecoded]
    exact ⟨by rw [hruns.1, hruns.2]; exact h1, fun _ => by rw [hruns.1, hctx]; exact h2⟩
  | pullPacket =>
    simp only
    obtain ⟨_, hctx, _, hcase⟩ := pullPacket_shape lib s
    have hruns : initRuns (pullPacket lib s).trace = initRuns s.trace ∧
        framesDecoded (pullPacket lib s).trace = framesDecoded s.trace := by
      rcases hcase with ⟨e, _, ht, _⟩ | ⟨ht, _⟩ | ⟨n, ht, _⟩ | ⟨ht, _⟩ <;>
        simp [ht, initRuns_append, initRuns, framesDecoded_append, framesDecoded]
    exact ⟨by rw [hruns.1, hruns.2]; exact h1, fun _ => by rw [hruns.1, hctx]; exact h2⟩
  | pullFrame =>
    simp only
    obtain ⟨_, _, hcase⟩ := pullFrame_shape lib s hp
    have hflag : s.encodeCodecContext.isNone = (framesDecoded s.trace == 0) := by
      rw [h2, h1]
      cases framesDecoded s.trace <;> simp [List.range_succ]
    have hgrow : ∀ (tr : List Event),
        initRuns tr = initRuns s.trace ++ [s.encodeCodecContext.isNone] →
        framesDecoded tr = framesDecoded s.trace + 1 →
        initRuns tr = (List.range (framesDecoded tr)).map (fun (k : Nat) => k == 0) := by
      intro tr hr hf
      rw [hr, hf, List.range_succ, List.map_append, ← h1, hflag]
      rfl
    rcases hcase with ⟨e, hd, _, ht, _, _, _, hctx⟩ | ⟨ht, _, _, hctx⟩ | ⟨ht, hnone, hpan, _⟩ |
      ⟨ht, _, hpan, _⟩ | ⟨ht, hsome, _, _⟩
    · have hruns : initRuns (pullFrame lib s).trace = initRuns s.trace ∧
          framesDecoded (pullFrame lib s).trace = framesDecoded s.trace := by
        cases e <;> simp [AvError.drained] at hd <;>
          simp [ht, initRuns_append, initRuns, framesDecoded_append, framesDecoded]
      exact ⟨by rw [hruns.1, hruns.2]; exact h1, fun _ => by rw [hruns.1, hctx]; exact h2⟩
    · have hruns : initRuns (pullFrame lib s).trace = initRuns s.trace ∧
          framesDecoded (pullFrame lib s).trace = framesDecoded s.trace := by
        simp [ht, initRuns_append, initRuns, framesDecoded_append, framesDecoded]
      exact ⟨by rw [hruns.1, hruns.2]; exact h1, fun _ => by rw [hruns.1, hctx]; exact h2⟩
    · refine ⟨hgrow _ ?_ ?_, ?_⟩
      · simp [ht, initRuns_append, initRuns, hnone]
      · simp [ht, framesDecoded_append, framesDecoded]
      · intro hnp
        rw [hnp] at hpan
        cases hpan
    · refine ⟨hgrow _ ?_ ?_, ?_⟩
      · simp [ht, initRuns_append, initRuns]
      · simp [ht, framesDecoded_append, framesDecoded]
      · intro hnp
        rw [hnp] at hpan
        cases hpan
    · refine ⟨hgrow _ ?_ ?_, ?_⟩
      · simp [ht, initRuns_append, initRuns]
      · simp [ht, framesDecoded_append, framesDecoded]
      · intro _
        have hr : initRuns (pullFrame lib s).trace =
            initRuns s.trace ++ [s.encodeCodecContext.isNone] := by
          simp [ht, initRuns_append, initRuns]
        rw [hr]
        cases hc : (pullFrame lib s).encodeCodecContext with
        | none => rw [hc] at hsome; cases hsome
        | some c => simp

/-- Appending the actions of one loop turn keeps the ordering invariant,
when they may follow what came before, are ordered among themselves, and
leave the program at a point that may follow the last of them. -/
theorem orderInv_extend (s s1 : Pipeline) (e0 : Event) (evs : List Event) (h : orderInv s)
    (hp : s.panic = none) (ht : s1.trace = s.trace ++ e0 :: evs)
    (hfirst : ∀ a, mayFollow a s.loc.next = true → mayFollow a e0 = true)
    (hstart : s.loc = .submit → ∃ au, e0 = .getNAL au)
    (hchain : List.Chain' (fun a b => mayFollow a b = true) (e0 :: evs))
    (hlast : s1.panic = none →
      ∀ a, (e0 :: evs).getLast? = some a → mayFollow a s1.loc.next = true) :
    orderInv s1 := by
  obtain ⟨hc, hh, hl⟩ := h
  obtain ⟨hempty, hl⟩ := hl hp
  refine ⟨?_, ?_, ?_⟩
  · rw [ht, List.chain'_append]
    refine ⟨hc, hchain, ?_⟩
    intro x hx y hy
    simp only [List.head?_cons, Option.mem_def, Option.some.injEq] at hy
    subst hy
    exact hfirst x (hl x hx)
  · intro e he
    rw [ht] at he
    cases htr : s.trace with
    | nil =>
      rw [htr] at he
      simp only [List.nil_append, List.head?_cons, Option.some.injEq] at he
      subst he
      exact hstart (hempty htr)
    | cons a l =>
      rw [htr] at he
      simp only [List.cons_append, List.head?_cons, Option.some.injEq] at he
      exact hh e (by rw [htr, List.head?_cons, he])
  · intro hp1
    refine ⟨?_, ?_⟩
    · intro hnil
      rw [ht] at hnil
      simp at hnil
    · intro a ha
      apply hlast hp1 a
      rw [ht, List.getLast?_append] at ha
      cases hgl : (e0 :: evs).getLast? with
      | none => simp at hgl
      | some b =>
        rw [hgl] at ha
        simpa using ha

theorem orderInv_step (J : Joy5) (lib : Nat → Reply) (s : Pipeline) (h : orderInv s)
    (hp : s.panic = none) : orderInv (step J lib s) := by
  rw [step_of_running J lib s hp]
  cases hl : s.loc with
  | submit =>
    simp only
    obtain ⟨_, _, _, hcase⟩ := submit_shape J lib s
    rcases hcase with ⟨p, _, ht, hpan⟩ | ⟨au, ex, _, _, ⟨ht, hpan⟩ | ⟨ht, hpan⟩ | ⟨ht, _, hloc⟩⟩
    · refine ⟨by rw [ht]; exact h.1, by rw [ht]; exact h.2.1, ?_⟩
      intro hnp
      rw [hnp] at hpan
      cases hpan
    · refine orderInv_extend s _ _ [] h hp ht ?_ (fun _ => ⟨au, rfl⟩) (by simp) ?_
      · intro a ha; rw [hl] at ha; exact ha
      · intro hnp; rw [hnp] at hpan; cases hpan
    · refine orderInv_extend s _ _ _ h hp ht ?_ (fun _ => ⟨au, rfl⟩) (by simp [mayFollow]) ?_
      · intro a ha; rw [hl] at ha; exact ha
      · intro hnp; rw [hnp] at hpan; cases hpan
    · refine orderInv_extend s _ _ _ h hp ht ?_ (fun _ => ⟨au, rfl⟩) (by simp [mayFollow]) ?_
      · intro a ha; rw [hl] at ha; exact ha
      · intro _ a ha
        simp only [List.getLast?_cons_cons, List.getLast?_singleton, Option.some.injEq] at ha
        subst ha
        rw [hloc]
        rfl
  | pullFrame =>
    simp only
    have hstart : s.loc = .submit → ∃ au, Event.ReceiveFrame (lib s.calls).err = .getNAL au := by
      intro h1; rw [hl] at h1; cases h1
    obtain ⟨_, _, hcase⟩ := pullFrame_shape lib s hp
    have hfirst : ∀ e a, mayFollow a s.loc.next = true →
        mayFollow a (Event.ReceiveFrame e) = true := by
      intro e a ha; rw [hl] at ha; exact ha
    have hst : ∀ e, s.loc = .submit → ∃ au, Event.ReceiveFrame e = .getNAL au := by
      intro e h1; rw [hl] at h1; cases h1
    rcases hcase with ⟨e, hd, _, ht, _, hloc, _⟩ | ⟨ht, hpan, _⟩ | ⟨ht, _, hpan, _⟩ |
      ⟨ht, _, hpan, _⟩ | ⟨ht, _, _, hpan | ⟨_, hloc⟩⟩
    · refine orderInv_extend s _ _ [] h hp ht (hfirst e) (hst e) (by simp) ?_
      intro _ a ha
      simp only [List.getLast?_singleton, Option.some.injEq] at ha
      subst ha
      rw [hloc]
      exact hd
    · refine orderInv_extend s _ _ [] h hp ht (hfirst _) (hst _) (by simp) ?_
      intro hnp; rw [hnp] at hpan; cases hpan
    · refine orderInv_extend s _ _ _ h hp ht (hfirst _) (hst _) (by simp [mayFollow]) ?_
      intro hnp; rw [hnp] at hpan; cases hpan
    · refine orderInv_extend s _ _ _ h hp ht (hfirst _) (hst _) (by simp [mayFollow]) ?_
      intro hnp; rw [hnp] at hpan; cases hpan
    · refine orderInv_extend s _ _ _ h hp ht (hfirst _) (hst _) (by simp [mayFollow]) ?_
      intro hnp; rw [hnp] at hpan; cases hpan
    · refine orderInv_extend s _ _ _ h hp ht (hfirst _) (hst _) (by simp [mayFollow]) ?_
      intro _ a ha
      simp only [List.getLast?_cons_cons, List.getLast?_singleton, Option.some.injEq] at ha
      subst ha
      rw [hloc]
      rfl
  | pullPacket =>
    simp only
    obtain ⟨_, _, _, hcase⟩ := pullPacket_shape lib s
    have hfirst : ∀ e d a, mayFollow a s.loc.next = true →
        mayFollow a (Event.ReceivePacket e d) = true := by
      intro e d a ha; rw [hl] at ha; exact ha
    have hst : ∀ e d, s.loc = .submit → ∃ au, Event.ReceivePacket e d = .getNAL au := by
      intro e d h1; rw [hl] at h1; cases h1
    rcases hcase with ⟨e, hd, ht, _, hloc, _⟩ | ⟨ht, hpan, _⟩ | ⟨n, ht, hpan, _⟩ |
      ⟨ht, _, hloc, _⟩
    · refine orderInv_extend s _ _ [] h hp ht (hfirst _ _) (hst _ _) (by simp) ?_
      intro _ a ha
      simp only [List.getLast?_singleton, Option.some.injEq] at ha
      subst ha
      rw [hloc]
      exact hd
    · refine orderInv_extend s _ _ [] h hp ht (hfirst _ _) (hst _ _) (by simp) ?_
      intro hnp; rw [hnp] at hpan; cases hpan
    · refine orderInv_extend s _ _ _ h hp ht (hfirst _ _) (hst _ _) (by simp [mayFollow]) ?_
      intro hnp; rw [hnp] at hpan; cases hpan
    · refine orderInv_extend s _ _ _ h hp ht (hfirst _ _) (hst _ _) (by simp [mayFollow]) ?_
      intro _ a ha
      simp only [List.getLast?_cons_cons, List.getLast?_singleton, Option.some.injEq] at ha
      subst ha
      rw [hloc, hl]
      rfl

/-- In an ordered list of actions that starts with a read, every action
that is not a read has a direct predecessor which it may follow. -/
theorem chain_predecessor (tr : List Event)
    (hc : List.Chain' (fun a b => mayFollow a b = true) tr) :
    ∀ (i : Nat) (b : Event), tr[i + 1]? = some b →
      ∃ a, tr[i]? = some a ∧ mayFollow a b = true := by
  induction tr with
  | nil => intro i b h; simp at h
  | cons x l ih =>
    intro i b h
    cases l with
    | nil => simp at h
    | cons y l1 =>
      rw [List.chain'_cons] at hc
      cases i with
      | zero =>
        simp only [zero_add, List.getElem?_cons_succ, List.getElem?_cons_zero,
          Option.some.injEq] at h
        subst h
        exact ⟨x, by simp, hc.1⟩
      | succ j =>
        have := ih hc.2 j b (by simpa using h)
        simpa using this

theorem scaleCount_append (a b : List Event) :
    scaleCount (a ++ b) = scaleCount a + scaleCount b := by
  simp [scaleCount, List.countP_append]

/-- A call of `ScaleFrame` already followed by its `SendFrame` stays so when
the trace grows. -/
theorem stampedAt_old (l evs : List Event) (h : stampedAt l false) (i : Nat)
    (hi : i < l.length) (hs : (l ++ evs)[i]? = some .ScaleFrame) :
    (l ++ evs)[i + 1]? =
      some (.SendFrame (wrapInt64 ((scaleCount ((l ++ evs).take i) : Int) + 1))) := by
  rw [List.getElem?_append_left hi] at hs
  rcases h i hs with h2 | ⟨hf, _⟩
  · have hlt : i + 1 < l.length := by
      by_contra hge
      rw [List.getElem?_eq_none (by omega)] at h2
      cases h2
    rw [List.getElem?_append_left hlt, List.take_append_of_le_length (by omega)]
    exact h2
  · cases hf

theorem stampedAt_append (l evs : List Event) (b : Bool) (h : stampedAt l false)
    (hno : ∀ e ∈ evs, e ≠ Event.ScaleFrame) : stampedAt (l ++ evs) b := by
  intro i hs
  by_cases hi : i < l.length
  · exact Or.inl (stampedAt_old l evs h i hi hs)
  · rw [List.getElem?_append_right (by omega)] at hs
    exact absurd rfl (hno _ (List.getElem?_mem hs))

theorem stampedAt_scale_failed (l : List Event) (h : stampedAt l false) :
    stampedAt (l ++ [Event.ScaleFrame]) true := by
  intro i hs
  by_cases hi : i < l.length
  · exact Or.inl (stampedAt_old l _ h i hi hs)
  · have hlen : i = l.length := by
      by_contra hne
      rw [List.getElem?_append_right (by omega)] at hs
      have : 1 ≤ i - l.length := by omega
      rw [List.getElem?_eq_none (by simpa using this)] at hs
      cases hs
    exact Or.inr ⟨rfl, by simp [hlen]⟩

theorem stampedAt_scale_sent (l : List Event) (b : Bool) (h : stampedAt l false) :
    stampedAt (l ++ [Event.ScaleFrame,
      Event.SendFrame (wrapInt64 ((scaleCount l : Int) + 1))]) b := by
  intro i hs
  by_cases hi : i < l.length
  · exact Or.inl (stampedAt_old l _ h i hi hs)
  · have hlen : i = l.length := by
      by_contra hne
      rw [List.getElem?_append_right (by omega)] at hs
      by_cases h1 : i - l.length = 1
      · rw [h1] at hs
        simp at hs
      · rw [List.getElem?_eq_none (by simp; omega)] at hs
        cases hs
    left
    subst hlen
    rw [List.getElem?_append_right (by omega), List.take_append_of_le_length (le_refl _),
      List.take_length]
    simp

theorem stampInv_step (J : Joy5) (lib : Nat → Reply) (s : Pipeline) (h : stampInv s)
    (hp : s.panic = none) : stampInv (step J lib s) := by
  obtain ⟨hpts, hst, hcnt, _⟩ := h
  have hst0 : stampedAt s.trace false := by
    rw [hp] at hst
    exact hst
  have hcnt0 : scaleCount s.trace = (sentPts s.trace).length := hcnt (by rw [hp]; simp)
  refine ⟨ptsInv_step J lib s hpts hp, ?_⟩
  rw [step_of_running J lib s hp]
  have keep : ∀ (s1 : Pipeline) (evs : List Event), s1.trace = s.trace ++ evs →
      scaleCount evs = 0 → sentPts evs = [] →
      stampedAt s1.trace (s1.panic == some .scaleFrame) ∧
      (s1.panic ≠ some .scaleFrame → scaleCount s1.trace = (sentPts s1.trace).length) ∧
      (sentPts s1.trace).length ≤ scaleCount s1.trace := by
    intro s1 evs ht h0 hsent
    rw [ht]
    refine ⟨stampedAt_append _ _ _ hst0 ?_, fun _ => ?_, ?_⟩
    · intro e he heq
      have := List.countP_eq_zero.1 h0 e he
      rw [heq] at this
      exact this (by decide)
    · rw [scaleCount_append, sentPts_append, h0, hsent, hcnt0]
      simp
    · rw [scaleCount_append, sentPts_append, h0, hsent, hcnt0]
      simp
  cases hl : s.loc with
  | submit =>
    simp only
    obtain ⟨_, _, _, hcase⟩ := submit_shape J lib s
    rcases hcase with ⟨p, _, ht, _⟩ | ⟨au, ex, _, _, ⟨ht, _⟩ | ⟨ht, _⟩ | ⟨ht, _⟩⟩
    · exact keep _ [] (by rw [ht]; simp) rfl rfl
    · exact keep _ _ ht (by simp [scaleCount]) (by simp [sentPts])
    · exact keep _ _ ht (by simp [scaleCount]) (by simp [sentPts])
    · exact keep _ _ ht (by simp [scaleCount]) (by simp [sentPts])
  | pullPacket =>
    simp only
    obtain ⟨_, _, _, hcase⟩ := pullPacket_shape lib s
    rcases hcase with ⟨e, _, ht, _⟩ | ⟨ht, _⟩ | ⟨n, ht, _⟩ | ⟨ht, _⟩
    · exact keep _ _ ht (by simp [scaleCount]) (by simp [sentPts])
    · exact keep _ _ ht (by simp [scaleCount]) (by simp [sentPts])
    · exact keep _ _ ht (by simp [scaleCount]) (by simp [sentPts])
    · exact keep _ _ ht (by simp [scaleCount]) (by simp [sentPts])
  | pullFrame =>
    simp only
    obtain ⟨_, _, hcase⟩ := pullFrame_shape lib s hp
    have hpre : ∀ b : Bool, stampedAt (s.trace ++ [Event.ReceiveFrame .nil,
        Event.initVideoEncoding b]) false ∧
        scaleCount (s.trace ++ [Event.ReceiveFrame .nil, Event.initVideoEncoding b]) =
          (sentPts s.trace).length := by
      intro b
      refine ⟨stampedAt_append _ _ _ hst0 ?_, ?_⟩
      · intro e he
        simp only [List.mem_cons, List.mem_singleton, List.not_mem_nil, or_false] at he
        rcases he with h1 | h1 <;> rw [h1] <;> simp
      · rw [scaleCount_append, hcnt0]
        simp [scaleCount]
    rcases hcase with ⟨e, _, _, ht, _⟩ | ⟨ht, _⟩ | ⟨ht, _⟩ | ⟨ht, _, hpan, _⟩ |
      ⟨ht, _, _, hpan⟩
    · exact keep _ _ ht (by simp [scaleCount]) (by simp [sentPts])
    · exact keep _ _ ht (by simp [scaleCount]) (by simp [sentPts])
    · exact keep _ _ ht (by simp [scaleCount]) (by simp [sentPts])
    · have htr : (pullFrame lib s).trace =
          (s.trace ++ [Event.ReceiveFrame .nil,
            Event.initVideoEncoding s.encodeCodecContext.isNone]) ++ [Event.ScaleFrame] := by
        rw [ht]; simp
      refine ⟨?_, fun hne => absurd hpan hne, ?_⟩
      · rw [htr, hpan]
        exact stampedAt_scale_failed _ (hpre _).1
      · rw [ht, scaleCount_append, sentPts_append, hcnt0]
        simp [scaleCount, sentPts]
    · have hstamp : wrapInt64 (s.pts + 1) =
          wrapInt64 ((scaleCount (s.trace ++ [Event.ReceiveFrame .nil,
            Event.initVideoEncoding s.encodeCodecContext.isNone]) : Int) + 1) := by
        rw [(hpre _).2, hpts.1, wrapInt64_succ]
      have htr : (pullFrame lib s).trace =
          (s.trace ++ [Event.ReceiveFrame .nil,
            Event.initVideoEncoding s.encodeCodecContext.isNone]) ++
          [Event.ScaleFrame, Event.SendFrame (wrapInt64 ((scaleCount (s.trace ++
            [Event.ReceiveFrame .nil,
              Event.initVideoEncoding s.encodeCodecContext.isNone]) : Int) + 1))] := by
        rw [ht, ← hstamp]; simp
      refine ⟨?_, fun _ => ?_, ?_⟩
      · rw [htr]
        exact stampedAt_scale_sent _ _ (hpre _).1
      · rw [ht, scaleCount_append, sentPts_append, hcnt0]
        simp [scaleCount, sentPts]
      · rw [ht, scaleCount_append, sentPts_append, hcnt0]
        simp [scaleCount, sentPts]

theorem submit_scaledFrame (J : Joy5) (lib : Nat → Reply) (s : Pipeline) :
    (submit J lib s).scaledFrame = s.scaledFrame := by
  cases hg : getNAL J s.extractor with
  | error p => rw [submit_error J lib s p hg]
  | ok r =>
    obtain ⟨au, ex⟩ := r
    by_cases h1 : (lib s.calls).err = .nil
    · by_cases h2 : (lib (s.calls + 1)).err = .nil
      · rw [submit_ok J lib s au ex hg h1 h2]
      · rw [submit_sendPacket J lib s au ex hg h1 h2]
    · rw [submit_fromData J lib s au ex hg h1]

theorem pullPacket_scaledFrame (lib : Nat → Reply) (s : Pipeline) :
    (pullPacket lib s).scaledFrame = s.scaledFrame := by
  by_cases hd : (lib s.calls).err.drained = true
  · rw [pullPacket_drained lib s hd]
  cases he : (lib s.calls).err with
  | eagain => rw [he] at hd; simp [AvError.drained] at hd
  | eof => rw [he] at hd; simp [AvError.drained] at hd
  | other => rw [pullPacket_other lib s he]
  | nil =>
    by_cases hw : (lib (s.calls + 1)).err = .nil
    · rw [pullPacket_written lib s he hw]
    · rw [pullPacket_writeFailed lib s he hw]

/-- Effect of `initVideoEncoding` on `scaledFrame`: untouched by a guarded
call, allocated by a body that ran to its end. -/
theorem initVideoEncoding_scaledFrame (lib : Nat → Reply) (s : Pipeline) :
    (s.encodeCodecContext.isSome = true →
      (initVideoEncoding lib s).scaledFrame = s.scaledFrame) ∧
    (s.encodeCodecContext.isSome = false →
      (initVideoEncoding lib s).panic.isSome = true ∨
      (initVideoEncoding lib s).scaledFrame = some 0) := by
  unfold initVideoEncoding
  cases hctx : s.encodeCodecContext with
  | some c => simp
  | none =>
    simp only [Option.isSome_none, Bool.false_eq_true, if_false]
    split_ifs <;> simp

theorem frameInv_step (J : Joy5) (lib : Nat → Reply) (s : Pipeline) (h : frameInv s)
    (hp : s.panic = none) : frameInv (step J lib s) := by
  obtain ⟨hA, hB⟩ := h
  have hA := hA hp
  rw [step_of_running J lib s hp]
  have keep : ∀ (s1 : Pipeline), sentPts s1.trace = sentPts s.trace →
      s1.encodeCodecContext = s.encodeCodecContext → s1.scaledFrame = s.scaledFrame →
      s1.pts = s.pts → frameInv s1 := by
    intro s1 ht hc hf hpts
    refine ⟨fun _ => ?_, ?_⟩
    · rw [hc, hf]; exact hA
    · rw [ht, hc, hf, hpts]; exact hB
  cases hl : s.loc with
  | submit =>
    simp only
    obtain ⟨hpts, _, hctx, hcase⟩ := submit_shape J lib s
    refine keep _ ?_ hctx (submit_scaledFrame J lib s) hpts
    rcases hcase with ⟨p, _, ht, _⟩ | ⟨au, ex, _, _, ⟨ht, _⟩ | ⟨ht, _⟩ | ⟨ht, _⟩⟩ <;>
      simp [ht, sentPts_append, sentPts]
  | pullPacket =>
    simp only
    obtain ⟨hpts, hctx, _, hcase⟩ := pullPacket_shape lib s
    refine keep _ ?_ hctx (pullPacket_scaledFrame lib s) hpts
    rcases hcase with ⟨e, _, ht, _⟩ | ⟨ht, _⟩ | ⟨n, ht, _⟩ | ⟨ht, _⟩ <;>
      simp [ht, sentPts_append, sentPts]
  | pullFrame =>
    simp only
    by_cases hd : (lib s.calls).err.drained = true
    · rw [pullFrame_drained lib s hd]
      exact keep _ (by simp [sentPts_append, sentPts]) rfl rfl rfl
    cases he : (lib s.calls).err with
    | eagain => rw [he] at hd; simp [AvError.drained] at hd
    | eof => rw [he] at hd; simp [AvError.drained] at hd
    | other =>
      rw [pullFrame_other lib s he]
      exact keep _ (by simp [sentPts_append, sentPts]) rfl rfl rfl
    | nil =>
      obtain ⟨ht, hpts, _, _, _, hsome, hnone⟩ :=
        initVideoEncoding_effect lib (frameReceived lib s)
      obtain ⟨hfsome, hfnone⟩ := initVideoEncoding_scaledFrame lib (frameReceived lib s)
      have hctx : (frameReceived lib s).encodeCodecContext = s.encodeCodecContext := rfl
      have hfr : (frameReceived lib s).scaledFrame = s.scaledFrame := rfl
      have hpan0 : (frameReceived lib s).panic = none := hp
      have hpts1 : (initVideoEncoding lib (frameReceived lib s)).pts = s.pts := hpts
      rw [hctx] at hsome hnone hfsome hfnone
      rw [hfr] at hfsome
      have hsent : sentPts (initVideoEncoding lib (frameReceived lib s)).trace =
          sentPts s.trace := by
        rw [ht]
        simp [frameReceived, sentPts_append, sentPts]
      cases hi : (initVideoEncoding lib (frameReceived lib s)).panic.isSome with
      | true =>
        rw [pullFrame_initPanic lib s he hi]
        refine ⟨fun hnp => ?_, fun hne => ?_⟩
        · rw [hnp] at hi; cases hi
        · rw [hsent] at hne
          have := (hsome (hB hne).1).2
          rw [this, hpan0] at hi
          cases hi
      | false =>
        have hctx1 : (initVideoEncoding lib (frameReceived lib s)).encodeCodecContext.isSome
            = true := by
          cases hc : s.encodeCodecContext with
          | none =>
            rcases hnone (by simp [hc]) with h | h
            · rw [hi] at h; cases h
            · exact h
          | some c =>
            rw [(hsome (by simp [hc])).1, hc]
            rfl
        have hframe : (initVideoEncoding lib (frameReceived lib s)).scaledFrame.isSome
            = true := by
          cases hc : s.encodeCodecContext.isSome with
          | true => rw [hfsome hc]; exact hA hc
          | false =>
            rcases hfnone hc with h | h
            · rw [hi] at h; cases h
            · rw [h]; rfl
        by_cases hs : (lib (initVideoEncoding lib (frameReceived lib s)).calls).err = .nil
        · rw [pullFrame_sendFrame lib s he hi hs]
          have hmap : (initVideoEncoding lib (frameReceived lib s)).scaledFrame.map
              (fun _ => wrapInt64 ((initVideoEncoding lib (frameReceived lib s)).pts + 1)) =
              some (wrapInt64 ((initVideoEncoding lib (frameReceived lib s)).pts + 1)) := by
            cases hf : (initVideoEncoding lib (frameReceived lib s)).scaledFrame with
            | none => rw [hf] at hframe; cases hframe
            | some x => rfl
          refine ⟨fun _ _ => ?_, fun _ => ⟨hctx1, ?_⟩⟩
          · simp only [hmap]; rfl
          · simp only [hmap]
        · rw [pullFrame_scaleFrame lib s he hi hs]
          refine ⟨fun hnp => (by cases hnp), fun hne => ⟨hctx1, ?_⟩⟩
          have hne1 : sentPts s.trace ≠ [] := by
            rw [← hsent]
            simpa [sentPts_append, sentPts] using hne
          obtain ⟨hc, hf⟩ := hB hne1
          show (initVideoEncoding lib (frameReceived lib s)).scaledFrame =
            some (initVideoEncoding lib (frameReceived lib s)).pts
          rw [hfsome hc, hpts1]
          exact hf

/-- A call of `ScaleFrame` at position `i` counts among the calls of the
whole trace, after those before it. -/
theorem scaleCount_take_lt (tr : List Event) (i : Nat) (h : tr[i]? = some .ScaleFrame) :
    scaleCount (tr.take i) + 1 ≤ scaleCount tr := by
  have h1 : scaleCount (tr.take (i + 1)) = scaleCount (tr.take i) + 1 := by
    rw [List.take_succ, h, scaleCount_append]
    simp [scaleCount]
  have h2 : scaleCount (tr.take (i + 1)) ≤ scaleCount tr :=
    List.Sublist.countP_le _ (List.take_sublist _ _)
  omega

theorem getLast?_map_range_succ (f : Nat → Int) (n : Nat) :
    ((List.range (n + 1)).map f).getLast? = some (f n) := by
  rw [List.range_succ, List.map_append]
  simp

/-! ## Properties of the transcode loop -/

theorem ptsInv_run (J : Joy5) (lib : Nat → Reply) (input : List NAL) (decoder : CodecContext)
    (fuel : Nat) : ptsInv (main J lib input decoder fuel) :=
  run_invariant J lib ptsInv (ptsInv_step J lib) fuel _
    ⟨by simp [Pipeline.init, sentPts, wrapInt64], by simp [Pipeline.init, sentPts]⟩

theorem initInv_run (J : Joy5) (lib : Nat → Reply) (input : List NAL) (decoder : CodecContext)
    (fuel : Nat) : initInv (main J lib input decoder fuel) :=
  run_invariant J lib initInv (initInv_step J lib) fuel _
    ⟨by simp [Pipeline.init, initRuns, framesDecoded],
     fun _ => by simp [Pipeline.init, initRuns]⟩

theorem orderInv_run (J : Joy5) (lib : Nat → Reply) (input : List NAL) (decoder : CodecContext)
    (fuel : Nat) : orderInv (main J lib input decoder fuel) :=
  run_invariant J lib orderInv (orderInv_step J lib) fuel _
    ⟨by simp [Pipeline.init], by simp [Pipeline.init],
     fun _ => ⟨fun _ => rfl, by simp [Pipeline.init]⟩⟩

theorem stampInv_run (J : Joy5) (lib : Nat → Reply) (input : List NAL) (decoder : CodecContext)
    (fuel : Nat) : stampInv (main J lib input decoder fuel) :=
  run_invariant J lib stampInv (stampInv_step J lib) fuel _
    ⟨⟨by simp [Pipeline.init, sentPts, wrapInt64], by simp [Pipeline.init, sentPts]⟩,
     by intro i hi; simp [Pipeline.init] at hi,
     fun _ => by simp [Pipeline.init, sentPts, scaleCount],
     by simp [Pipeline.init, sentPts]⟩

theorem frameInv_run (J : Joy5) (lib : Nat → Reply) (input : List NAL) (decoder : CodecContext)
    (fuel : Nat) : frameInv (main J lib input decoder fuel) :=
  run_invariant J lib frameInv (frameInv_step J lib) fuel _
    ⟨fun _ h => by simp [Pipeline.init] at h, fun h => by simp [Pipeline.init, sentPts] at h⟩

/-- C4, as stated, fails: the first pull of a frame answers `ErrEof`, and
the program goes on: it reads the second access unit and sends it to the
decoder, without any panic. -/
theorem eof_does_not_end_pipeline :
    (main sampleJoy5 eofLib [⟨5, [0x65]⟩, ⟨1, [0x41]⟩] CodecContext.zero 3).trace =
      [.getNAL [0, 0, 1, 0x65], .SendPacket [0, 0, 1, 0x65], .ReceiveFrame .eof,
       .getNAL [0, 0, 1, 0x41], .SendPacket [0, 0, 1, 0x41]] ∧
    (main sampleJoy5 eofLib [⟨5, [0x65]⟩, ⟨1, [0x41]⟩] CodecContext.zero 3).panic =
      none := by
  decide

/-- C4 (amended): `ErrEof` and `ErrEagain` from `ReceiveFrame` are handled
alike (line 71): either one ends the frame loop only, without a panic, and
the program is back at the head of the outer loop; its next turn is the body
of the outer loop, which reads the next access unit with `getNAL` and, when
`FromData` succeeds, sends it to the decoder. -/
theorem receiveFrame_eof_or_eagain_continues (J : Joy5) (lib : Nat → Reply) (s : Pipeline)
    (hp : s.panic = none) (hl : s.loc = .pullFrame)
    (he : (lib s.calls).err = .eof ∨ (lib s.calls).err = .eagain) :
    (step J lib s).panic = none ∧ (step J lib s).loc = .submit ∧
    (step J lib s).extractor = s.extractor ∧
    (step J lib s).trace = s.trace ++ [.ReceiveFrame (lib s.calls).err] ∧
    step J lib (step J lib s) = submit J lib (step J lib s) ∧
    (∀ au ex, getNAL J s.extractor = .ok (au, ex) → (lib (s.calls + 1)).err = .nil →
      (step J lib (step J lib s)).trace =
        s.trace ++ [.ReceiveFrame (lib s.calls).err, .getNAL au, .SendPacket au]) := by
  have hd : (lib s.calls).err.drained = true := by
    rcases he with h | h <;> simp [h, AvError.drained]
  have hs : step J lib s = pullFrame lib s := by
    rw [step_of_running J lib s hp, hl]
  have hpf := pullFrame_drained lib s hd
  have hp1 : (pullFrame lib s).panic = none := by rw [hpf]; exact hp
  have hl1 : (pullFrame lib s).loc = .submit := by rw [hpf]
  have hx1 : (pullFrame lib s).extractor = s.extractor := by rw [hpf]
  have hc1 : (pullFrame lib s).calls = s.calls + 1 := by rw [hpf]
  have ht1 : (pullFrame lib s).trace = s.trace ++ [.ReceiveFrame (lib s.calls).err] := by
    rw [hpf]
  have hs2 : step J lib (pullFrame lib s) = submit J lib (pullFrame lib s) := by
    rw [step_of_running J lib _ hp1, hl1]
  rw [hs]
  refine ⟨hp1, hl1, hx1, ht1, hs2, ?_⟩
  intro au ex hg hfd
  rw [hs2]
  rw [← hx1] at hg
  rw [← hc1] at hfd
  by_cases hsp : (lib ((pullFrame lib s).calls + 1)).err = .nil
  · rw [submit_ok J lib _ au ex hg hfd hsp]
    simp [ht1]
  · rw [submit_sendPacket J lib _ au ex hg hfd hsp]
    simp [ht1]

/-- Instance of C4 (amended): the state after the first access unit was
sent, with a library whose next answer is `ErrEof`. -/
theorem receiveFrame_eof_or_eagain_continues_witness :
    (step sampleJoy5 eofLib (main sampleJoy5 eofLib [⟨5, [0x65]⟩, ⟨1, [0x41]⟩] CodecContext.zero 1)).loc = .submit :=
  (receiveFrame_eof_or_eagain_continues sampleJoy5 eofLib
    (main sampleJoy5 eofLib [⟨5, [0x65]⟩, ⟨1, [0x41]⟩] CodecContext.zero 1)
    (by decide) (by decide) (Or.inl (by decide))).2.1

/-- C5: in every run, for every input and every sequence of library
answers, a frame reaches the scale stage (`ScaleFrame`) only as a frame the
decoder just delivered, and the `k`-th frame that reaches it is, directly
after `ScaleFrame`, sent to the encoder stamped with the `int64` value of
`k` (the only exception is a last `ScaleFrame` that failed and stopped the
program); no frame is sent otherwise, `scaledFrame` carries the timestamp
of the last frame sent, which is `pts`; so the timestamps sent are the
`int64` values of 1, 2, 3, ... in this order, and as long as fewer than
`2^63` frames were scaled or sent (the range of the counter `pts`) they are
exactly 1, 2, ..., one more per scaled frame. -/
theorem pts_counts_scaled_frames (J : Joy5) (lib : Nat → Reply) (input : List NAL)
    (decoder : CodecContext) (fuel : Nat) :
    (∀ i, (main J lib input decoder fuel).trace[i]? = some .ScaleFrame →
      (main J lib input decoder fuel).trace[i + 1]? =
        some (.SendFrame (wrapInt64
          ((scaleCount ((main J lib input decoder fuel).trace.take i) : Int) + 1))) ∨
      ((main J lib input decoder fuel).panic = some .scaleFrame ∧
        i + 1 = (main J lib input decoder fuel).trace.length)) ∧
    (∀ i, (main J lib input decoder fuel).trace[i]? = some .ScaleFrame →
      ∃ j b, i = j + 2 ∧
        (main J lib input decoder fuel).trace[j]? = some (.ReceiveFrame .nil) ∧
        (main J lib input decoder fuel).trace[j + 1]? = some (.initVideoEncoding b)) ∧
    (∀ i p, (main J lib input decoder fuel).trace[i]? = some (.SendFrame p) →
      ∃ j, i = j + 1 ∧ (main J lib input decoder fuel).trace[j]? = some .ScaleFrame) ∧
    ((main J lib input decoder fuel).panic ≠ some .scaleFrame →
      scaleCount (main J lib input decoder fuel).trace =
        (sentPts (main J lib input decoder fuel).trace).length) ∧
    sentPts (main J lib input decoder fuel).trace =
      (List.range (sentPts (main J lib input decoder fuel).trace).length).map
        (fun (k : Nat) => wrapInt64 ((k : Int) + 1)) ∧
    (sentPts (main J lib input decoder fuel).trace ≠ [] →
      (main J lib input decoder fuel).scaledFrame = some (main J lib input decoder fuel).pts ∧
      (sentPts (main J lib input decoder fuel).trace).getLast? =
        some (main J lib input decoder fuel).pts) ∧
    (scaleCount (main J lib input decoder fuel).trace < 9223372036854775808 →
      (∀ i, (main J lib input decoder fuel).trace[i]? = some .ScaleFrame →
        (main J lib input decoder fuel).trace[i + 1]? =
          some (.SendFrame
            ((scaleCount ((main J lib input decoder fuel).trace.take i) : Int) + 1)) ∨
        ((main J lib input decoder fuel).panic = some .scaleFrame ∧
          i + 1 = (main J lib input decoder fuel).trace.length))) ∧
    ((sentPts (main J lib input decoder fuel).trace).length < 9223372036854775808 →
      sentPts (main J lib input decoder fuel).trace =
        (List.range (sentPts (main J lib input decoder fuel).trace).length).map
          (fun (k : Nat) => (k : Int) + 1) ∧
      (main J lib input decoder fuel).pts =
        (sentPts (main J lib input decoder fuel).trace).length) := by
  obtain ⟨⟨h1, h2⟩, hst, hcnt, hle⟩ := stampInv_run J lib input decoder fuel
  obtain ⟨_, hB⟩ := frameInv_run J lib input decoder fuel
  obtain ⟨hchain, hhead, _⟩ := orderInv_run J lib input decoder fuel
  have hstamp : ∀ i, (main J lib input decoder fuel).trace[i]? = some .ScaleFrame →
      (main J lib input decoder fuel).trace[i + 1]? =
        some (.SendFrame (wrapInt64
          ((scaleCount ((main J lib input decoder fuel).trace.take i) : Int) + 1))) ∨
      ((main J lib input decoder fuel).panic = some .scaleFrame ∧
        i + 1 = (main J lib input decoder fuel).trace.length) := by
    intro i hi
    rcases hst i hi with h | ⟨hf, hlen⟩
    · exact Or.inl h
    · exact Or.inr ⟨by simpa using hf, hlen⟩
  refine ⟨hstamp, ?_, ?_, hcnt, h2, ?_, ?_, ?_⟩
  · intro i hi
    cases i with
    | zero =>
      obtain ⟨au, hau⟩ := hhead _ (by rw [List.head?_eq_getElem?]; exact hi)
      cases hau
    | succ j =>
      obtain ⟨a, ha, hab⟩ := chain_predecessor _ hchain j _ hi
      cases a <;> simp [mayFollow] at hab
      rename_i b
      cases j with
      | zero =>
        obtain ⟨au, hau⟩ := hhead _ (by rw [List.head?_eq_getElem?]; exact ha)
        cases hau
      | succ k =>
        obtain ⟨a1, ha1, hab1⟩ := chain_predecessor _ hchain k _ ha
        simp only [mayFollow, beq_iff_eq] at hab1
        exact ⟨k, b, rfl, by rw [ha1, hab1], ha⟩
  · intro i p hi
    cases i with
    | zero =>
      obtain ⟨au, hau⟩ := hhead _ (by rw [List.head?_eq_getElem?]; exact hi)
      cases hau
    | succ j =>
      obtain ⟨a, ha, hab⟩ := chain_predecessor _ hchain j _ hi
      simp only [mayFollow, beq_iff_eq] at hab
      exact ⟨j, rfl, by rw [ha, hab]⟩
  · intro hne
    refine ⟨(hB hne).2, ?_⟩
    cases hn : (sentPts (main J lib input decoder fuel).trace).length with
    | zero => exact absurd (List.length_eq_zero.1 hn) hne
    | succ m =>
      rw [h2, h1, hn, getLast?_map_range_succ]
      simp
  · intro hn i hi
    have hlt := scaleCount_take_lt _ i hi
    rcases hstamp i hi with h | h
    · left
      rw [h, wrapInt64_small _ (by omega) (by omega)]
    · exact Or.inr h
  · intro hn
    refine ⟨?_, ?_⟩
    · rw [h2]
      simp only [List.length_map, List.length_range]
      apply List.map_congr_left
      intro k hk
      have hk := List.mem_range.1 hk
      rw [h2, List.length_map, List.length_range] at hn
      exact wrapInt64_small _ (by omega) (by omega)
    · rw [h1]
      exact wrapInt64_small _ (by omega) (by omega)

/-- Instance of C5: in the sample run the action at position 4 is the first
`ScaleFrame`, followed by `SendFrame 1`; two frames are sent, with
timestamps 1 and 2, and `scaledFrame` carries the last one. -/
theorem pts_counts_scaled_frames_witness :
    ((main sampleJoy5 sampleLib sampleInput CodecContext.zero 9).trace[5]? =
        some (.SendFrame (wrapInt64 ((scaleCount
          ((main sampleJoy5 sampleLib sampleInput CodecContext.zero 9).trace.take 4) : Int)
            + 1))) ∨
      ((main sampleJoy5 sampleLib sampleInput CodecContext.zero 9).panic = some .scaleFrame ∧
        4 + 1 = (main sampleJoy5 sampleLib sampleInput CodecContext.zero 9).trace.length)) ∧
    ((main sampleJoy5 sampleLib sampleInput CodecContext.zero 9).scaledFrame =
        some (main sampleJoy5 sampleLib sampleInput CodecContext.zero 9).pts ∧
      (sentPts (main sampleJoy5 sampleLib sampleInput CodecContext.zero 9).trace).getLast? =
        some (main sampleJoy5 sampleLib sampleInput CodecContext.zero 9).pts) ∧
    (sentPts (main sampleJoy5 sampleLib sampleInput CodecContext.zero 9).trace =
      (List.range (sentPts (main sampleJoy5 sampleLib sampleInput CodecContext.zero 9).trace).length).map
        (fun (k : Nat) => (k : Int) + 1) ∧
    (main sampleJoy5 sampleLib sampleInput CodecContext.zero 9).pts =
      (sentPts (main sampleJoy5 sampleLib sampleInput CodecContext.zero 9).trace).length) :=
  ⟨(pts_counts_scaled_frames sampleJoy5 sampleLib sampleInput CodecContext.zero 9).1 4
      (by decide),
   (pts_counts_scaled_frames sampleJoy5 sampleLib sampleInput CodecContext.zero 9).2.2.2.2.2.1
      (by decide),
   (pts_counts_scaled_frames sampleJoy5 sampleLib sampleInput CodecContext.zero 9).2.2.2.2.2.2.2
      (by decide)⟩

/-- C6: in every run, `initVideoEncoding` is called once per decoded frame
and its body runs in the first of these calls only (never when no frame is
decoded); each call comes directly after a successful `ReceiveFrame`, and
`ScaleFrame` is only called directly after it, so the body runs before the
first frame is scaled; a call made when the encoder context exists changes
nothing in the program state (it is only recorded). -/
theorem initVideoEncoding_runs_once (J : Joy5) (lib : Nat → Reply) (input : List NAL)
    (decoder : CodecContext) (fuel : Nat) :
    initRuns (main J lib input decoder fuel).trace =
      (List.range (framesDecoded (main J lib input decoder fuel).trace)).map
        (fun (k : Nat) => k == 0) ∧
    (∀ i b, (main J lib input decoder fuel).trace[i]? =
        some (.initVideoEncoding b) →
      ∃ j, i = j + 1 ∧
        (main J lib input decoder fuel).trace[j]? = some (.ReceiveFrame .nil)) ∧
    (∀ i, (main J lib input decoder fuel).trace[i]? = some .ScaleFrame →
      ∃ j b, i = j + 1 ∧
        (main J lib input decoder fuel).trace[j]? =
          some (.initVideoEncoding b)) ∧
    (∀ s : Pipeline, s.encodeCodecContext.isSome = true →
      initVideoEncoding lib s = { s with trace := s.trace ++ [.initVideoEncoding false] }) := by
  obtain ⟨hruns, _⟩ := initInv_run J lib input decoder fuel
  obtain ⟨hchain, hhead, _⟩ := orderInv_run J lib input decoder fuel
  refine ⟨hruns, ?_, ?_, ?_⟩
  · intro i b hi
    cases i with
    | zero =>
      obtain ⟨au, hau⟩ := hhead _ (by rw [List.head?_eq_getElem?]; exact hi)
      cases hau
    | succ j =>
      obtain ⟨a, ha, hab⟩ := chain_predecessor _ hchain j _ hi
      refine ⟨j, rfl, ?_⟩
      simp only [mayFollow, beq_iff_eq] at hab
      rw [ha, hab]
  · intro i hi
    cases i with
    | zero =>
      obtain ⟨au, hau⟩ := hhead _ (by rw [List.head?_eq_getElem?]; exact hi)
      cases hau
    | succ j =>
      obtain ⟨a, ha, hab⟩ := chain_predecessor _ hchain j _ hi
      cases a <;> simp [mayFollow] at hab
      exact ⟨j, _, rfl, ha⟩
  · intro s hs
    simp [initVideoEncoding, hs]

/-- Instance of C6: a later call of `initVideoEncoding`, in the state
reached after the first frame of the sample run. -/
theorem initVideoEncoding_runs_once_witness :
    initVideoEncoding sampleLib (main sampleJoy5 sampleLib sampleInput CodecContext.zero 5) =
      { main sampleJoy5 sampleLib sampleInput CodecContext.zero 5 with
        trace := (main sampleJoy5 sampleLib sampleInput CodecContext.zero 5).trace ++ [.initVideoEncoding false] } :=
  (initVideoEncoding_runs_once sampleJoy5 sampleLib sampleInput CodecContext.zero 5).2.2.2
    (main sampleJoy5 sampleLib sampleInput CodecContext.zero 5) (by decide)

/-- C9: whenever the body of `initVideoEncoding` runs, whatever the width,
height and pixel format of the decoder, an encoder context it sets has width
1280 and height 720 and the pixel format and sample aspect ratio of the
decoder; and when its four library calls succeed, the encoder context is
that one, the scaler goes from the width, height and pixel format of the
decoder to 1280 x 720 in the same pixel format, and there is no panic. -/
theorem initVideoEncoding_configuration (lib : Nat → Reply) (s : Pipeline)
    (hnone : s.encodeCodecContext = none) :
    (∀ c, (initVideoEncoding lib s).encodeCodecContext = some c →
      c.Width = 1280 ∧ c.Height = 720 ∧ c.Width = outputWidth ∧ c.Height = outputHeight ∧
      c.PixelFormat = s.decodeCodecContext.PixelFormat ∧
      c.SampleAspectRatio = s.decodeCodecContext.SampleAspectRatio ∧ c.TimeBase = (1, 30)) ∧
    ((lib s.calls).isNil = false → (lib (s.calls + 1)).isNil = false →
      (lib (s.calls + 2)).err = .nil → (lib (s.calls + 3)).err = .nil →
      (initVideoEncoding lib s).encodeCodecContext =
        some ⟨s.decodeCodecContext.PixelFormat, s.decodeCodecContext.SampleAspectRatio,
          (1, 30), 1280, 720⟩ ∧
      (initVideoEncoding lib s).softwareScaleContext =
        some ⟨s.decodeCodecContext.Width, s.decodeCodecContext.Height,
          s.decodeCodecContext.PixelFormat, 1280, 720, s.decodeCodecContext.PixelFormat,
          .bilinear⟩ ∧
      (initVideoEncoding lib s).panic = s.panic) := by
  constructor
  · intro c hc
    unfold initVideoEncoding at hc
    simp only [hnone, Option.isSome_none, Bool.false_eq_true, if_false] at hc
    split_ifs at hc <;> simp at hc <;> subst hc <;>
      exact ⟨rfl, rfl, rfl, rfl, rfl, rfl, rfl⟩
  · intro h1 h2 h3 h4
    simp [initVideoEncoding, hnone, h1, h2, h3, h4, outputWidth, outputHeight]

/-- Instance of C9: a 640 x 480 decoder and a 1920 x 1080 decoder both give
an encoder and a scaler target of 1280 x 720. -/
theorem initVideoEncoding_configuration_witness :
    ((initVideoEncoding (fun _ => Reply.ok 640 480 0 [])
        (Pipeline.init [] ⟨0, (1, 1), (0, 1), 640, 480⟩)).encodeCodecContext =
        some ⟨0, (1, 1), (1, 30), 1280, 720⟩ ∧
      (initVideoEncoding (fun _ => Reply.ok 640 480 0 [])
        (Pipeline.init [] ⟨0, (1, 1), (0, 1), 640, 480⟩)).softwareScaleContext =
        some ⟨640, 480, 0, 1280, 720, 0, .bilinear⟩ ∧
      (initVideoEncoding (fun _ => Reply.ok 640 480 0 [])
        (Pipeline.init [] ⟨0, (1, 1), (0, 1), 640, 480⟩)).panic = none) ∧
    ((initVideoEncoding (fun _ => Reply.ok 1920 1080 0 [])
        (Pipeline.init [] ⟨0, (1, 1), (0, 1), 1920, 1080⟩)).encodeCodecContext =
        some ⟨0, (1, 1), (1, 30), 1280, 720⟩ ∧
      (initVideoEncoding (fun _ => Reply.ok 1920 1080 0 [])
        (Pipeline.init [] ⟨0, (1, 1), (0, 1), 1920, 1080⟩)).softwareScaleContext =
        some ⟨1920, 1080, 0, 1280, 720, 0, .bilinear⟩ ∧
      (initVideoEncoding (fun _ => Reply.ok 1920 1080 0 [])
        (Pipeline.init [] ⟨0, (1, 1), (0, 1), 1920, 1080⟩)).panic = none) :=
  ⟨(initVideoEncoding_configuration (fun _ => Reply.ok 640 480 0 [])
      (Pipeline.init [] ⟨0, (1, 1), (0, 1), 640, 480⟩) rfl).2 rfl rfl rfl rfl,
   (initVideoEncoding_configuration (fun _ => Reply.ok 1920 1080 0 [])
      (Pipeline.init [] ⟨0, (1, 1), (0, 1), 1920, 1080⟩) rfl).2 rfl rfl rfl rfl⟩

end H264Transcode
